import Mathlib

/-!
Verification of the mcp-iterm server (src/index.ts) against its
natural-language specification.  The TypeScript source is shallowly
embedded: pure string-processing functions become Lean functions on
`String` / `List Char`; the asynchronous retry loop becomes a recursion
over a sequence of attempt outcomes; the effectful tool handlers become
functions from an explicit channel environment to a response paired with
the trace of channel calls they issued.  JavaScript numbers are modelled
as `Rat` (finite values; NaN / Infinity do not arise in the claims),
JavaScript regular expressions over the metacharacter-free patterns the
source builds are modelled as literal substring search, and JS string
indices (UTF-16 units) are modelled as Unicode code points (the claims
only involve characters below U+10000, where the two coincide).
-/

namespace McpIterm

/-- Single-quote character (U+0027), written via its code point so the
apostrophe never appears literally in the file. -/
def sq : Char := Char.ofNat 39

/-- Pattern scanner: returns the least position `i` (together with the
produced value) at which `test` accepts the suffix of `l` starting at `i`,
scanning left to right exactly as a JS regex / `indexOf` search does. -/
def scanFirst (test : List Char → Option α) : List Char → Option (Nat × α)
  | [] =>
    match test [] with
    | some a => some (0, a)
    | none => none
  | c :: rest =>
    match test (c :: rest) with
    | some a => some (0, a)
    | none => (scanFirst test rest).map (fun p => (p.1 + 1, p.2))

/-- Embedding of JavaScript `String.prototype.indexOf` restricted to a
found/not-found answer: position of the first occurrence of `pat` in `l`. -/
def indexOfSub (l pat : List Char) : Option Nat :=
  (scanFirst (fun suf => if pat.isPrefixOf suf then some () else none) l).map Prod.fst

/-- Embedding of JavaScript `String.prototype.includes`. -/
def containsSub (s pat : String) : Bool :=
  (indexOfSub s.toList pat.toList).isSome

/-- Specification-side predicate: `pat` occurs in `l` at position `i`.
Stated with `List.IsPrefix`, independently of the `scanFirst` scanner. -/
def occursAt (l pat : List Char) (i : Nat) : Prop :=
  pat <+: l.drop i

instance (l pat : List Char) (i : Nat) : Decidable (occursAt l pat i) :=
  inferInstanceAs (Decidable (pat <+: l.drop i))

/-- Embedding of the JS regex class `\d` (the decimal digits 0-9). -/
def digitRun (l : List Char) : List Char :=
  l.takeWhile Char.isDigit

/-- Numeric value of a list of decimal digits; the behaviour of JS
`parseInt(ds, 10)` on a non-empty all-digit string. -/
def digitsToNat (l : List Char) : Nat :=
  l.foldl (fun acc c => 10 * acc + (c.toNat - 48)) 0

/-- Embedding of JS `String.prototype.trim` (ASCII whitespace; the claims
only exercise spaces, tabs, newlines and carriage returns). -/
def jsTrim (l : List Char) : List Char :=
  ((l.dropWhile Char.isWhitespace).reverse.dropWhile Char.isWhitespace).reverse

/-- Embedding of JS `parseInt(s, 10)`: skip leading whitespace, read an
optional sign and a non-empty digit run; `none` models NaN. -/
def parseIntJS (s : String) : Option Int :=
  let l := s.toList.dropWhile Char.isWhitespace
  match l with
  | '-' :: rest =>
    if digitRun rest = [] then none else some (-(digitsToNat (digitRun rest) : Int))
  | '+' :: rest =>
    if digitRun rest = [] then none else some (digitsToNat (digitRun rest) : Int)
  | _ =>
    if digitRun l = [] then none else some (digitsToNat (digitRun l) : Int)

/-! ### Marked-content extraction (src/index.ts, extractMarkedContent) -/

/-- Extraction result of the marked-command protocol: the text between the
markers and the parsed exit status, `-1` being the sentinel for an
unobserved end marker (src/index.ts lines 322-343). -/
structure ExtractionResult where
  content : String
  exitCode : Int
deriving DecidableEq, Repr

/-- Test for a match of the regex `<marker>-END:(\d+)` at the head of a
suffix: the literal `marker ++ "-END:"` followed by at least one digit;
returns the greedy digit run (the capture group).  The markers the program
generates (`===<hex>-<millis>===`) contain no regex metacharacters, so the
regex denotes exactly this literal search. -/
def endHere (marker : List Char) (suf : List Char) : Option (List Char) :=
  let pre := marker ++ ("-END:").toList
  if pre.isPrefixOf suf then
    let ds := digitRun (suf.drop pre.length)
    if ds = [] then none else some ds
  else none

/-- First match of `<marker>-END:(\d+)` in a list, with its position and
captured digits: the embedding of `afterStart.match(endMarkerPattern)`. -/
def findEnd (marker : List Char) (l : List Char) : Option (Nat × List Char) :=
  scanFirst (endHere marker) l

/-- Embedding of `extractMarkedContent(fullContent, marker)` from
src/index.ts lines 322-343.  The source recovers the end position with
`afterStart.indexOf(endMatch[0])`; since the matched string itself begins
with the pattern, its first occurrence is exactly the first match position
already produced by the regex search, so the match position is used
directly here. -/
def extractMarkedContent (fullContent marker : String) : ExtractionResult :=
  match indexOfSub fullContent.toList ((marker ++ "-START").toList) with
  | none => ⟨"", -1⟩
  | some startIndex =>
    match findEnd marker.toList
        (fullContent.toList.drop (startIndex + ((marker ++ "-START").toList).length)) with
    | none =>
      ⟨(fullContent.toList.drop (startIndex + ((marker ++ "-START").toList).length)).asString, -1⟩
    | some (endIndex, ds) =>
      ⟨(jsTrim ((fullContent.toList.drop
          (startIndex + ((marker ++ "-START").toList).length)).take endIndex)).asString,
        (digitsToNat ds : Int)⟩

/-- Test whether a list starts with a decimal digit. -/
def headDigit (l : List Char) : Bool :=
  match l.head? with
  | some d => d.isDigit
  | none => false

/-- Specification-side test for a match of `<marker>-END:<digits>` at the
head of a suffix, written directly with prefix and head tests,
independently of the `endHere` / `digitRun` implementation. -/
def endSpecHit (suf marker : List Char) : Bool :=
  (marker ++ ("-END:").toList).isPrefixOf suf &&
    headDigit (suf.drop (marker ++ ("-END:").toList).length)

/-! ### Automation channel client (src/index.ts, runAppleScript) -/

/-- Outcome of one osascript attempt relative to the timeout window: the
attempt settles successfully within timeoutMs, exceeds the window
(so the scheduled timer fires first), or rejects within the window with an
error message. -/
inductive AttemptOutcome where
  | completes (stdout : String)
  | timesOut
  | fails (msg : String)
deriving DecidableEq, Repr

/-- Settled state of the runAppleScript promise, tagged by the rejection
branch of the source (timeout after all retries, iTerm2 unavailable after
all retries, or an immediately fatal script error). -/
inductive RunResult where
  | resolved (out : String)
  | rejectedTimeout (msg : String)
  | rejectedUnavailable (msg : String)
  | rejectedFailed (msg : String)
deriving DecidableEq, Repr

/-- Classification of a channel error as transient (iTerm2 unreachable) by
substring match, src/index.ts lines 144-147. -/
def isTransientErr (msg : String) : Bool :=
  containsSub msg "No such app" || containsSub msg "connection is invalid" ||
    containsSub msg "not running"

/-- Embedding of JS String.prototype.trim on strings. -/
def jsTrimStr (s : String) : String :=
  (jsTrim s.toList).asString

/-- Embedding of executeWithRetry (src/index.ts lines 126-159): attempts
are indexed by the environment sequence; on a timeout or a transient error
a remaining retry is consumed and the next attempt runs, otherwise the
promise settles.  Timer bookkeeping (clearTimeout) and the fixed 500 ms
delay before a transient-error retry have no observable effect here, and a
timed-out attempt is treated as abandoned: its late settlement after the
promise has already settled is real-time promise racing outside this
model. -/
def executeWithRetry (env : Nat → AttemptOutcome) (timeoutMs retries : Nat) :
    Nat → Nat → RunResult
  | idx, remaining =>
    match env idx with
    | .completes out => .resolved (jsTrimStr out)
    | .timesOut =>
      match remaining with
      | r + 1 => executeWithRetry env timeoutMs retries (idx + 1) r
      | 0 => .rejectedTimeout ("AppleScript execution timed out after "
          ++ Nat.repr timeoutMs ++ "ms and " ++ Nat.repr retries ++ " retries")
    | .fails msg =>
      if isTransientErr msg then
        match remaining with
        | r + 1 => executeWithRetry env timeoutMs retries (idx + 1) r
        | 0 => .rejectedUnavailable ("iTerm2 unavailable after " ++ Nat.repr retries
            ++ " retries: " ++ msg)
      else .rejectedFailed ("AppleScript execution failed: " ++ msg)

/-- Embedding of runAppleScript (src/index.ts lines 124-163): start the
retry loop at attempt 0 with all retries remaining. -/
def runAppleScript (env : Nat → AttemptOutcome) (timeoutMs retries : Nat) : RunResult :=
  executeWithRetry env timeoutMs retries 0 retries

/-! ### Script escaping (src/index.ts, escapeForAppleScript and the
osascript shell quoting in runAppleScript) -/

/-- Concatenating character map: the effect of a JS global replace whose
pattern is a single-character class. -/
def cmap (f : Char → List Char) : List Char → List Char
  | [] => []
  | c :: rest => f c ++ cmap f rest

/-- Lowercase hex digit, as produced by JS Number.toString(16). -/
def hexDigitChar (n : Nat) : Char :=
  if n < 10 then Char.ofNat (48 + n) else Char.ofNat (87 + n)

/-- Four-digit zero-padded lowercase hex, the payload of the generated
numeric escape charCodeAt(0).toString(16).padStart(4, 0-fill).  JS sees
UTF-16 units (always below 0x10000); code points at or above 0x10000 would
be two surrogate escapes in JS and are not exercised by the claims. -/
def hex4 (n : Nat) : List Char :=
  [hexDigitChar (n / 4096 % 16), hexDigitChar (n / 256 % 16),
   hexDigitChar (n / 16 % 16), hexDigitChar (n % 16)]

/-- Replace backslash by double backslash (first .replace of
escapeForAppleScript). -/
def escStep1 (c : Char) : List Char := if c = '\\' then ['\\', '\\'] else [c]

/-- Replace double quote by backslash quote (second .replace). -/
def escStep2 (c : Char) : List Char := if c = '"' then ['\\', '"'] else [c]

/-- Replace single quote by the shell sequence quote-backslash-quote-quote
(third .replace). -/
def escStep3 (c : Char) : List Char := if c = sq then [sq, '\\', sq, sq] else [c]

/-- Replace newline by backslash n (fourth .replace). -/
def escStep4 (c : Char) : List Char := if c = '\n' then ['\\', 'n'] else [c]

/-- Replace carriage return by backslash r (fifth .replace). -/
def escStep5 (c : Char) : List Char := if c = '\r' then ['\\', 'r'] else [c]

/-- Replace tab by backslash t (sixth .replace). -/
def escStep6 (c : Char) : List Char := if c = '\t' then ['\\', 't'] else [c]

/-- Replace any non-ASCII character by a backslash-u numeric escape
(seventh .replace, pattern: anything outside the range 0x00 to 0x7F). -/
def escStep7 (c : Char) : List Char :=
  if 127 < c.toNat then '\\' :: 'u' :: hex4 c.toNat else [c]

/-- Embedding of escapeForAppleScript (src/index.ts lines 165-178) on its
string branch: the chain of global replaces, applied in source order. -/
def escapeList (l : List Char) : List Char :=
  cmap escStep7 (cmap escStep6 (cmap escStep5 (cmap escStep4
    (cmap escStep3 (cmap escStep2 (cmap escStep1 l))))))

/-- String-level escapeForAppleScript. -/
def escapeForAppleScript (s : String) : String :=
  (escapeList s.toList).asString

/-- Embedding of the quoting runAppleScript applies to the whole script
before placing it in the single-quoted osascript argument:
script.replace of every single quote by quote-backslash-quote-quote
(src/index.ts line 138). -/
def shellArgEscape (l : List Char) : List Char :=
  cmap (fun c => if c = sq then [sq, '\\', sq, sq] else [c]) l

/-- Modelled from documented POSIX shell quoting (the decode side of the
claim is the shell, an external interpreter): parse of a shell word,
tracking whether the cursor is inside a single-quoted span; inside a span
every character except the closing quote is literal; outside, a backslash
escapes the next character; none models an unterminated quote or a
trailing backslash. -/
def shellDecodeAux : Bool → List Char → Option (List Char)
  | true, [] => none
  | false, [] => some []
  | true, c :: rest =>
    if c = sq then shellDecodeAux false rest
    else (shellDecodeAux true rest).map (fun l => c :: l)
  | false, c :: rest =>
    if c = sq then shellDecodeAux true rest
    else if c = '\\' then
      match rest with
      | [] => none
      | d :: rest2 => (shellDecodeAux false rest2).map (fun l => d :: l)
    else (shellDecodeAux false rest).map (fun l => c :: l)

/-- Decoded value of one escaped character in an AppleScript string
literal: the documented escapes give backslash, double quote, newline,
carriage return and tab; any other escaped character is read leniently as
the character itself with the backslash dropped. -/
def asEsc (d : Char) : Char :=
  if d = 'n' then '\n' else if d = 'r' then '\r' else if d = 't' then '\t' else d

/-- Modelled from the documented AppleScript string-literal escapes (the
decode side of the claim is the AppleScript interpreter, an external
program): the content of a double-quoted literal with escape sequences
resolved.  AppleScript documents no backslash-u escape, so the numeric
escapes the source emits are decoded leniently here (a strict interpreter
would reject the script instead; the round-trip claim fails either way). -/
def appleScriptUnescape : List Char → List Char
  | [] => []
  | c :: rest =>
    if c = '\\' then
      match rest with
      | [] => ['\\']
      | d :: rest2 => asEsc d :: appleScriptUnescape rest2
    else c :: appleScriptUnescape rest

/-- Composite decode pipeline of the round-trip claim: the escaped payload
rides inside an AppleScript string literal inside the shell-quoted
osascript argument; the shell layer restores the script exactly (proved
separately), so the composite decode of the payload is the AppleScript
literal decode of the escaped payload. -/
def escapeDecodeRoundTrip (s : String) : String :=
  (appleScriptUnescape (escapeForAppleScript s).toList).asString

/-- Concrete input for the round-trip claim, containing a backslash, a
double quote, a newline, a carriage return, a tab and a non-ASCII
character (e acute, U+00E9). -/
def roundTripProbe : String :=
  ⟨['\\', '"', '\n', '\r', '\t', Char.ofNat 233]⟩

/-! ### Tool arguments and validation (src/index.ts, validate) -/

/-- JavaScript value of a tool-call argument.  Finite numbers are `Rat`
(NaN and Infinity do not arise in the claims); objects are collapsed to a
single truthy non-primitive value. -/
inductive JSVal where
  | num (q : Rat)
  | str (s : String)
  | undef
  | null
  | boolV (b : Bool)
  | obj
deriving DecidableEq, Repr

/-- JS truthiness: undefined, null, false, 0 and the empty string are
falsy. -/
def JSVal.falsy : JSVal → Bool
  | .num q => q == 0
  | .str s => s == ""
  | .undef => true
  | .null => true
  | .boolV b => !b
  | .obj => false

/-- Integer value of an argument already validated as an integral number
(its denominator is 1, so the numerator is the value); 0 on other shapes,
which validation has excluded wherever this is used. -/
def JSVal.asInt : JSVal → Int
  | .num q => q.num
  | _ => 0

/-- Rational value of an argument already validated as a number. -/
def JSVal.asRat : JSVal → Rat
  | .num q => q
  | _ => 0

/-- String value of an argument already validated as a string. -/
def JSVal.asStr : JSVal → String
  | .str s => s
  | _ => ""

/-- Rendering of a JS number in a template literal; integral values print
as integers.  The decimal rendering of non-integral values is not modelled
digit for digit (no claim inspects such a message). -/
def ratRepr (q : Rat) : String :=
  if q.isInt then toString q.num else toString q

/-- Lightweight JSON.stringify for the validation error message (inner
string escaping is not modelled; no claim inspects it). -/
def jsonStringifyLite : JSVal → String
  | .num q => ratRepr q
  | .str s => "\"" ++ s ++ "\""
  | .undef => "undefined"
  | .null => "null"
  | .boolV b => cond b "true" "false"
  | .obj => "\x7b\x7d"

/-- Embedding of validate.tabIndex (src/index.ts lines 47-60): some error
message when invalid, none when valid. -/
def validateTabIndex : JSVal → Option String
  | .undef => some "Error: tab parameter is required."
  | .num q =>
    if q < 0 ∨ q.isInt = false then
      some ("Error: tab parameter must be a non-negative integer, got " ++ ratRepr q)
    else none
  | v => some ("Error: tab parameter must be a non-negative integer, got "
      ++ jsonStringifyLite v)

/-- Embedding of validate.command (src/index.ts lines 62-72). -/
def validateCommand (v : JSVal) : Option String :=
  if v.falsy then some "Error: command parameter is required."
  else
    match v with
    | .str s =>
      if jsTrimStr s = "" then some "Error: command parameter must be a non-empty string"
      else none
    | _ => some "Error: command parameter must be a non-empty string"

/-- Embedding of validate.waitTime (src/index.ts lines 74-83). -/
def validateWait : JSVal → Option String
  | .undef => none
  | .num q =>
    if q < 0 then some "Error: wait parameter must be a non-negative number" else none
  | _ => some "Error: wait parameter must be a non-negative number"

/-- Embedding of validate.lines (src/index.ts lines 85-94), parameterized
by the reported parameter name. -/
def validateLines (lines : JSVal) (pname : String) : Option String :=
  match lines with
  | .undef => none
  | .num q =>
    if q < 0 ∨ q.isInt = false then
      some ("Error: " ++ pname ++ " parameter must be a non-negative integer")
    else none
  | _ => some ("Error: " ++ pname ++ " parameter must be a non-negative integer")

/-- Result of validate.letter: a validation error message or the validated
uppercase letter. -/
inductive LetterCheck where
  | invalid (msg : String)
  | valid (upper : Char)
deriving DecidableEq, Repr

/-- Per-character model of JS String.prototype.toUpperCase, as used by the
subsequent single-A-Z test: ASCII a-z uppercase via Char.toUpper, and the
two non-ASCII letters whose Unicode uppercase is a single A-Z character
are mapped there as JS does — dotless i (U+0131) to I and long s (U+017F)
to S.  Every other character is kept unchanged, which preserves the
accept/reject verdict of the regex test on every string: no other code
point uppercases to a single A-Z character (multi-character special
casings such as sharp s to SS lengthen the string, failing the
single-character test either way), and characters of a rejected string are
never used further. -/
def jsUpperChar (c : Char) : Char :=
  if c = Char.ofNat 305 then Char.ofNat 73
  else if c = Char.ofNat 383 then Char.ofNat 83
  else c.toUpper

/-- Embedding of validate.letter (src/index.ts lines 96-107).  The source
calls letter.toUpperCase() before checking the type, so a truthy
non-string argument throws a TypeError there, modelled by the .error
branch.  The uppercasing is the jsUpperChar model of JS toUpperCase, so
the exotic letters U+0131 and U+017F pass the single-A-Z test exactly as
they do in the program. -/
def validateLetter (v : JSVal) : Except String LetterCheck :=
  if v.falsy then Except.ok (LetterCheck.invalid "Error: letter parameter is required.")
  else
    match v with
    | .str s =>
      match s.toList.map jsUpperChar with
      | [c] =>
        if decide (65 ≤ c.toNat) && decide (c.toNat ≤ 90) then Except.ok (LetterCheck.valid c)
        else Except.ok (LetterCheck.invalid "Error: Letter must be a single character from A-Z.")
      | _ => Except.ok (LetterCheck.invalid "Error: Letter must be a single character from A-Z.")
    | _ => Except.error "letter.toUpperCase is not a function"

/-- Arguments of a tool call, one field per property any tool reads;
properties a request does not supply are undefined. -/
structure Args where
  tab : JSVal
  command : JSVal
  wait : JSVal
  lines : JSVal
  tailLines : JSVal
  letter : JSVal
deriving DecidableEq, Repr

/-- Arguments object with every property undefined. -/
def noArgs : Args :=
  ⟨JSVal.undef, JSVal.undef, JSVal.undef, JSVal.undef, JSVal.undef, JSVal.undef⟩

/-! ### Responses, channel calls and environment -/

/-- One item of a tool response content list. -/
structure ContentItem where
  type : String
  text : String
deriving DecidableEq, Repr

/-- Tool response shape (src/index.ts createResponse, lines 113-119). -/
structure Response where
  content : List ContentItem
deriving DecidableEq, Repr

/-- Embedding of createResponse.success. -/
def createSuccess (text : String) : Response :=
  ⟨[⟨"text", text⟩]⟩

/-- Embedding of createResponse.error on a string argument. -/
def createError (text : String) : Response :=
  ⟨[⟨"text", text⟩]⟩

/-- A channel call, identified by the script-builder operation and its
parameters; the AppleScript text rendered by AS_HELPERS is abstracted at
this boundary (each constructor corresponds to one helper script). -/
inductive Call where
  | tabCount
  | tabContent (i : Nat)
  | tabInfo (i : Nat)
  | sendText (i : Nat) (text : String)
  | sendControlChar (i : Nat) (code : Nat)
  | newTab
deriving DecidableEq, Repr

/-- Channel environment: the settled outcome of each runAppleScript call
(ok carries the resolved, trimmed stdout; error carries the rejection
message), plus the marker generateMarker() produces for this request. -/
structure ChanEnv where
  exec : Call → Except String String
  marker : String

/-- Result of one tool handler: the response, or a thrown error message
(only validate.letter can throw before the handler's own try/catch), paired
with the trace of channel calls issued, in order. -/
abbrev HandlerResult := Except String Response × List Call

/-! ### Tab info parsing and querying (src/index.ts lines 346-386) -/

/-- A point-in-time tab snapshot. -/
structure TabSnapshot where
  index : Nat
  name : String
  isRunning : Bool
  content : String
deriving DecidableEq, Repr

/-- Head test for the regex TAB_NAME:([^\n]*): the literal tag followed by
the greedy capture up to the next newline. -/
def nameHere (suf : List Char) : Option (List Char) :=
  if ("TAB_NAME:").toList.isPrefixOf suf then
    some ((suf.drop 9).takeWhile (fun c => c ≠ '\n'))
  else none

/-- Head test for the regex TAB_IS_RUNNING:(true|false). -/
def runningHere (suf : List Char) : Option Bool :=
  if ("TAB_IS_RUNNING:true").toList.isPrefixOf suf then some true
  else if ("TAB_IS_RUNNING:false").toList.isPrefixOf suf then some false
  else none

/-- Embedding of parseSingleTabInfo (src/index.ts lines 346-360). -/
def parseSingleTabInfo (tabData : String) (tabIndex : Nat) : TabSnapshot :=
  match indexOfSub tabData.toList (("TAB_CONTENT:").toList) with
  | some k =>
    ⟨tabIndex,
      (match scanFirst nameHere tabData.toList with
       | some p => p.2.asString
       | none => "Unknown"),
      (match scanFirst runningHere tabData.toList with
       | some p => p.2
       | none => false),
      (jsTrim (tabData.toList.drop (k + 12))).asString⟩
  | none => ⟨tabIndex, "Unknown", false, "Error parsing tab data"⟩

/-- Snapshot substituted when fetching one tab's info fails
(src/index.ts line 382). -/
def errorSnapshot (i : Nat) (msg : String) : TabSnapshot :=
  ⟨i, "Tab " ++ Nat.repr i, false, "Error accessing tab: " ++ msg⟩

/-- Per-tab outcome of the getAllTabInfo loop body: parse the fetched info
or substitute the error snapshot. -/
def tabInfoOutcome (env : ChanEnv) (i : Nat) : TabSnapshot :=
  match env.exec (Call.tabInfo i) with
  | Except.ok d => parseSingleTabInfo d i
  | Except.error msg => errorSnapshot i msg

/-- Embedding of getAllTabInfo (src/index.ts lines 374-386): read the tab
count (a failure there propagates), then loop i from 0 while i < count,
tolerating per-tab failures.  A count that parses as NaN makes the loop
run zero times. -/
def getAllTabInfo (env : ChanEnv) : Except String (List TabSnapshot) × List Call :=
  match env.exec Call.tabCount with
  | Except.error msg => (Except.error msg, [Call.tabCount])
  | Except.ok s =>
    match parseIntJS s with
    | none => (Except.ok [], [Call.tabCount])
    | some n =>
      (Except.ok ((List.range n.toNat).map (tabInfoOutcome env)),
        Call.tabCount :: (List.range n.toNat).map (fun i => Call.tabInfo i))

/-! ### Output shaping (src/index.ts, trimOutput and tailing) -/

/-- Embedding of trimOutput (src/index.ts lines 180-184); the source
default for maxSize is 5000, written explicitly at call sites here. -/
def trimOutput (content : String) (maxSize : Nat) : String :=
  if content.length ≤ maxSize then content
  else (content.toList.take maxSize).asString
    ++ "\n\n[Note: Output exceeded maximum size and was trimmed]"

/-- Embedding of contentLines.slice(-lines) for a validated non-negative
integer: slice(-0) is slice(0), the whole array; otherwise the last
`lines` elements (all of them when lines exceeds the length). -/
def sliceLast (l : List String) (n : Nat) : List String :=
  if n = 0 then l else l.drop (l.length - n)

/-- The 50-dash separator between tab sections in tail_tab_all. -/
def dashSep : String :=
  ⟨List.replicate 50 '-'⟩

/-- Shell command wrapped with the start and end markers
(AS_HELPERS.sendMarkedCommand, src/index.ts lines 300-303). -/
def markedCommand (marker command : String) : String :=
  "echo \"" ++ marker ++ "-START\"; " ++ command
    ++ "; RESULT=$?; echo \"" ++ marker ++ "-END:$RESULT\""

/-- Rendering of the count used in template literals (NaN when the tab
count did not parse). -/
def optIntRepr : Option Int → String
  | some n => toString n
  | none => "NaN"

/-- The bounds test tabIndex >= tabCount under JS comparison semantics:
comparing against NaN is false. -/
def jsGeOpt (t : Int) (cnt : Option Int) : Bool :=
  match cnt with
  | some n => decide (n ≤ t)
  | none => false

/-! ### Command handlers (src/index.ts, commands object) -/

namespace commands

/-- Embedding of commands.createNewTab (src/index.ts lines 393-400). -/
def createNewTab (_args : Args) (env : ChanEnv) : HandlerResult :=
  match env.exec Call.newTab with
  | Except.ok _ => (Except.ok (createSuccess "New tab created successfully."), [Call.newTab])
  | Except.error msg =>
    (Except.ok (createError ("Error creating new tab: " ++ msg)), [Call.newTab])

end commands

/-- Formatted section for one tab in the tail_tab_all listing
(src/index.ts lines 413-418). -/
def formatTabSection (lines : Nat) (tab : TabSnapshot) : String :=
  "========== TAB " ++ Nat.repr tab.index ++ ": " ++ tab.name ++ " ==========\n\n"
    ++ trimOutput (String.intercalate "\n" (sliceLast (tab.content.splitOn "\n") lines)) 5000

/-- Joined listing of all tab sections (src/index.ts line 419). -/
def formatAllTabs (lines : Nat) (tabs : List TabSnapshot) : String :=
  String.intercalate ("\n\n" ++ dashSep ++ "\n\n") (tabs.map (formatTabSection lines))

/-- Body of commands.TailTabAll after the lines default has been resolved
(src/index.ts lines 405-424). -/
def tailTabAllCore (lines : JSVal) (env : ChanEnv) : HandlerResult :=
  match validateLines lines "lines" with
  | some e => (Except.ok (createError e), [])
  | none =>
    match getAllTabInfo env with
    | (Except.error msg, tr) =>
      (Except.ok (createError ("Error listing tabs: " ++ msg)), tr)
    | (Except.ok tabs, tr) =>
      (Except.ok (createSuccess (trimOutput (formatAllTabs lines.asInt.toNat tabs) 10000)), tr)

/-- Tab-count fetch, bounds check and content fetch of
commands.TailTabSingle after validation (src/index.ts lines 442-459);
t is the validated tab index and lines the resolved line count. -/
def tailTabSingleCore (t : Int) (lines : Nat) (env : ChanEnv) : HandlerResult :=
  match env.exec Call.tabCount with
  | Except.error msg =>
    (Except.ok (createError ("Error accessing tab " ++ toString t ++ ": " ++ msg)),
      [Call.tabCount])
  | Except.ok countStr =>
    if decide (t < 0) || jsGeOpt t (parseIntJS countStr) then
      (Except.ok (createError ("Error: Tab index " ++ toString t
        ++ " is out of bounds. There are only " ++ optIntRepr (parseIntJS countStr)
        ++ " tabs.")), [Call.tabCount])
    else
      match env.exec (Call.tabContent t.toNat) with
      | Except.error msg =>
        (Except.ok (createError ("Error accessing tab " ++ toString t ++ ": " ++ msg)),
          [Call.tabCount, Call.tabContent t.toNat])
      | Except.ok content =>
        match env.exec (Call.tabInfo t.toNat) with
        | Except.error msg =>
          (Except.ok (createError ("Error accessing tab " ++ toString t ++ ": " ++ msg)),
            [Call.tabCount, Call.tabContent t.toNat, Call.tabInfo t.toNat])
        | Except.ok infoStr =>
          (Except.ok (createSuccess ("Tab " ++ toString t ++ " ("
            ++ (parseSingleTabInfo infoStr t.toNat).name ++ "):\n\n"
            ++ trimOutput (String.intercalate "\n"
                (sliceLast (content.splitOn "\n") lines)) 5000)),
            [Call.tabCount, Call.tabContent t.toNat, Call.tabInfo t.toNat])

/-- Marker extraction and status message of commands.runCommandBlocking
after validation (src/index.ts lines 482-503); the wait interval has no
observable effect in the model. -/
def runCommandBlockingCore (t : Int) (command : String) (env : ChanEnv) : HandlerResult :=
  match env.exec (Call.sendText t.toNat (markedCommand env.marker command)) with
  | Except.error msg =>
    (Except.ok (createError ("Error executing command in tab " ++ toString t ++ ": " ++ msg)),
      [Call.sendText t.toNat (markedCommand env.marker command)])
  | Except.ok _ =>
    match env.exec (Call.tabContent t.toNat) with
    | Except.error msg =>
      (Except.ok (createError ("Error executing command in tab " ++ toString t ++ ": " ++ msg)),
        [Call.sendText t.toNat (markedCommand env.marker command), Call.tabContent t.toNat])
    | Except.ok content =>
      (Except.ok (createSuccess (
        (if (extractMarkedContent content env.marker).exitCode = -1 then
          "Command is still running in tab " ++ toString t ++ " (no completion marker found)."
        else
          "Command completed in tab " ++ toString t ++ " with exit code "
            ++ toString (extractMarkedContent content env.marker).exitCode ++ ".")
        ++ " Output:\n\n"
        ++ trimOutput (extractMarkedContent content env.marker).content 5000)),
        [Call.sendText t.toNat (markedCommand env.marker command), Call.tabContent t.toNat])

/-- Base message of commands.runCommandAsync, reflecting whether a wait was
requested (src/index.ts lines 540-546). -/
def asyncBaseMessage (t : Int) (command : String) (waitTime : Rat) : String :=
  if 0 < waitTime then
    "Command \"" ++ command ++ "\" sent to tab " ++ toString t ++ " and waited "
      ++ ratRepr waitTime ++ " seconds."
  else "Command \"" ++ command ++ "\" sent to tab " ++ toString t ++ "."

/-- Output suffix of commands.runCommandAsync when tailLines > 0
(src/index.ts lines 550-561). -/
def asyncOutputMessage (t : Int) (command : String) (waitTime : Rat) (tailLines : Nat)
    (content marker : String) : String :=
  asyncBaseMessage t command waitTime
    ++ (if (extractMarkedContent content marker).exitCode ≠ -1 then
      " Completed with exit code " ++ toString (extractMarkedContent content marker).exitCode ++ "."
    else "")
    ++ "\n\nOutput (last " ++ Nat.repr tailLines ++ " lines):\n\n"
    ++ trimOutput (String.intercalate "\n"
        (sliceLast ((extractMarkedContent content marker).content.splitOn "\n") tailLines)) 5000

/-- Body of commands.runCommandAsync after validation (src/index.ts lines
536-567). -/
def runCommandAsyncCore (t : Int) (command : String) (waitTime : Rat) (tailLines : Nat)
    (env : ChanEnv) : HandlerResult :=
  match env.exec (Call.sendText t.toNat (markedCommand env.marker command)) with
  | Except.error msg =>
    (Except.ok (createError ("Error running command in tab " ++ toString t ++ ": " ++ msg)),
      [Call.sendText t.toNat (markedCommand env.marker command)])
  | Except.ok _ =>
    if 0 < waitTime ∨ 0 < tailLines then
      if 0 < tailLines then
        match env.exec (Call.tabContent t.toNat) with
        | Except.error msg =>
          (Except.ok (createError ("Error running command in tab " ++ toString t ++ ": " ++ msg)),
            [Call.sendText t.toNat (markedCommand env.marker command), Call.tabContent t.toNat])
        | Except.ok content =>
          (Except.ok (createSuccess
              (asyncOutputMessage t command waitTime tailLines content env.marker)),
            [Call.sendText t.toNat (markedCommand env.marker command), Call.tabContent t.toNat])
      else
        (Except.ok (createSuccess (asyncBaseMessage t command waitTime)),
          [Call.sendText t.toNat (markedCommand env.marker command)])
    else
      (Except.ok (createSuccess ("Command \"" ++ command ++ "\" sent to tab "
          ++ toString t ++ ".")),
        [Call.sendText t.toNat (markedCommand env.marker command)])

/-- The commandRunning field shown by get_all_tabs_info
(src/index.ts line 604). -/
def commandRunningField (b : Bool) : String :=
  if b then "unknown (detected via content)" else "none"

/-- One entry of the JSON.stringify(tabsInfo, null, 2) rendering; string
escaping inside names is not modelled (no claim inspects it). -/
def tabInfoJsonLine (t : TabSnapshot) : String :=
  "  \x7b\n    \"index\": " ++ Nat.repr t.index ++ ",\n    \"name\": \"" ++ t.name
    ++ "\",\n    \"isRunning\": " ++ cond t.isRunning "true" "false"
    ++ ",\n    \"commandRunning\": \"" ++ commandRunningField t.isRunning ++ "\"\n  \x7d"

/-- Rendering of JSON.stringify(tabsInfo, null, 2). -/
def tabsInfoJson (tabs : List TabSnapshot) : String :=
  if tabs.isEmpty then "[]"
  else "[\n" ++ String.intercalate ",\n" (tabs.map tabInfoJsonLine) ++ "\n]"

namespace commands

/-- Embedding of commands.TailTabAll (src/index.ts lines 403-425): the
lines argument defaults through the falsy-or expression args?.lines || 20
before validation. -/
def TailTabAll (args : Args) (env : ChanEnv) : HandlerResult :=
  tailTabAllCore (if args.lines.falsy then JSVal.num 20 else args.lines) env

/-- Embedding of commands.TailTabSingle (src/index.ts lines 428-460):
destructuring default lines = 50, validation of tab and lines, then the
count check and content fetch. -/
def TailTabSingle (args : Args) (env : ChanEnv) : HandlerResult :=
  match validateTabIndex args.tab with
  | some e => (Except.ok (createError e), [])
  | none =>
    match validateLines (if args.lines = JSVal.undef then JSVal.num 50 else args.lines)
        "lines" with
    | some e => (Except.ok (createError e), [])
    | none =>
      tailTabSingleCore args.tab.asInt
        (if args.lines = JSVal.undef then JSVal.num 50 else args.lines).asInt.toNat env

/-- Embedding of commands.runCommandBlocking (src/index.ts lines 463-504):
destructuring default wait = 5, validation of tab, command and wait, then
the marked send, wait and extraction. -/
def runCommandBlocking (args : Args) (env : ChanEnv) : HandlerResult :=
  match validateTabIndex args.tab with
  | some e => (Except.ok (createError e), [])
  | none =>
    match validateCommand args.command with
    | some e => (Except.ok (createError e), [])
    | none =>
      match validateWait (if args.wait = JSVal.undef then JSVal.num 5 else args.wait) with
      | some e => (Except.ok (createError e), [])
      | none => runCommandBlockingCore args.tab.asInt args.command.asStr env

/-- Embedding of commands.runCommandAsync (src/index.ts lines 507-568):
destructuring defaults wait = 0 and tailLines = 0, validation of tab,
command, wait and tailLines, then the marked send and optional tail. -/
def runCommandAsync (args : Args) (env : ChanEnv) : HandlerResult :=
  match validateTabIndex args.tab with
  | some e => (Except.ok (createError e), [])
  | none =>
    match validateCommand args.command with
    | some e => (Except.ok (createError e), [])
    | none =>
      match validateWait (if args.wait = JSVal.undef then JSVal.num 0 else args.wait) with
      | some e => (Except.ok (createError e), [])
      | none =>
        match validateLines
            (if args.tailLines = JSVal.undef then JSVal.num 0 else args.tailLines)
            "tailLines" with
        | some e => (Except.ok (createError e), [])
        | none =>
          runCommandAsyncCore args.tab.asInt args.command.asStr
            (if args.wait = JSVal.undef then JSVal.num 0 else args.wait).asRat
            (if args.tailLines = JSVal.undef then JSVal.num 0 else args.tailLines).asInt.toNat
            env

/-- Embedding of commands.sendControlCode (src/index.ts lines 571-593):
validation of tab and letter (the latter can throw), then the control byte
ord(upper) - 64 is sent. -/
def sendControlCode (args : Args) (env : ChanEnv) : HandlerResult :=
  match validateTabIndex args.tab with
  | some e => (Except.ok (createError e), [])
  | none =>
    match validateLetter args.letter with
    | Except.error msg => (Except.error msg, [])
    | Except.ok (LetterCheck.invalid e) => (Except.ok (createError e), [])
    | Except.ok (LetterCheck.valid upper) =>
      match env.exec (Call.sendControlChar args.tab.asInt.toNat (upper.toNat - 64)) with
      | Except.ok _ =>
        (Except.ok (createSuccess ("Control-" ++ String.singleton upper ++ " sent to tab "
            ++ toString args.tab.asInt ++ ".")),
          [Call.sendControlChar args.tab.asInt.toNat (upper.toNat - 64)])
      | Except.error msg =>
        (Except.ok (createError ("Error sending Control-" ++ String.singleton upper
            ++ " to tab " ++ toString args.tab.asInt ++ ": " ++ msg)),
          [Call.sendControlChar args.tab.asInt.toNat (upper.toNat - 64)])

/-- Embedding of commands.GetAllTabInfo (src/index.ts lines 596-611). -/
def GetAllTabInfo (_args : Args) (env : ChanEnv) : HandlerResult :=
  match getAllTabInfo env with
  | (Except.error msg, tr) =>
    (Except.ok (createError ("Error getting tabs info: " ++ msg)), tr)
  | (Except.ok tabs, tr) =>
    (Except.ok (createSuccess ("Tab Information:\n\n" ++ tabsInfoJson tabs)), tr)

end commands

/-! ### Tool table and the call-tool request handler -/

/-- One tool entry: name and handler (src/index.ts lines 617-697; input
schemas carry no behaviour). -/
structure Tool where
  name : String
  run : Args → ChanEnv → HandlerResult

/-- The seven registered tools, in source order. -/
def tools : List Tool :=
  [⟨"iterm_new_tab", commands.createNewTab⟩,
   ⟨"iterm_tail_tab_all", commands.TailTabAll⟩,
   ⟨"iterm_tail_tab_single", commands.TailTabSingle⟩,
   ⟨"iterm_run_command_blocking", commands.runCommandBlocking⟩,
   ⟨"iterm_run_command_async", commands.runCommandAsync⟩,
   ⟨"iterm_control_code", commands.sendControlCode⟩,
   ⟨"iterm_get_all_tabs_info", commands.GetAllTabInfo⟩]

/-- Conversion the top-level try/catch applies to a handler outcome: a
returned response passes through, anything thrown becomes a text error
response (createResponse.error on an Error object renders Error: message). -/
def convertResult (p : HandlerResult) : Response × List Call :=
  match p with
  | (Except.ok resp, tr) => (resp, tr)
  | (Except.error msg, tr) => (createError ("Error: " ++ msg), tr)

/-- Embedding of the CallToolRequestSchema handler (src/index.ts lines
719-732): find the tool by name, run its handler, and convert an unknown
name or anything thrown during dispatch into a text error response. -/
def handleCallTool (name : String) (args : Args) (env : ChanEnv) : Response × List Call :=
  match tools.find? (fun t => t.name == name) with
  | none => (createError ("Unknown tool \"" ++ name ++ "\""), [])
  | some t => convertResult (t.run args env)

/-- Well-formedness of a transport response: exactly one content item, of
type text. -/
def wellFormedResponse (r : Response) : Prop :=
  r.content.length = 1 ∧ ∀ item ∈ r.content, item.type = "text"

/-- Specification-side description of the letter arguments the program
accepts: a string whose JS-uppercased form (the jsUpperChar model) is a
single character in the range A-Z.  Besides single ASCII letters this
holds of dotless i (U+0131) and long s (U+017F). -/
def validLetterArg (v : JSVal) : Prop :=
  ∃ s c, v = JSVal.str s ∧ s.toList.map jsUpperChar = [c]
    ∧ 65 ≤ c.toNat ∧ c.toNat ≤ 90

/-- Specification-side description of the letter arguments the original
claim allows: a single character that is an A-Z letter up to ASCII case,
the literal reading of a single A-Z character case-insensitively. -/
def asciiLetterArg (v : JSVal) : Prop :=
  ∃ s c, v = JSVal.str s ∧ s.toList = [c]
    ∧ ((65 ≤ c.toNat ∧ c.toNat ≤ 90) ∨ (97 ≤ c.toNat ∧ c.toNat ≤ 122))

/-- The dotless i letter (U+0131), whose Unicode uppercase is the ASCII
letter I. -/
def strDotlessI : String :=
  String.singleton (Char.ofNat 305)

/-- Specification-side test that a message is an error string: it starts
with the word Error. -/
def startsError (s : String) : Prop :=
  s.toList.take 5 = ("Error").toList

instance (s : String) : Decidable (startsError s) :=
  inferInstanceAs (Decidable (s.toList.take 5 = ("Error").toList))

-- ==================================================
-- THEOREMS
-- ==================================================

/-! ### Characterization lemmas for the scanners -/

theorem scanFirst_eq_some_of {α : Type} (test : List Char → Option α)
    (l : List Char) (i : Nat) (a : α)
    (hhit : test (l.drop i) = some a)
    (hmin : ∀ j < i, test (l.drop j) = none) :
    scanFirst test l = some (i, a) := by
  induction l generalizing i with
  | nil =>
    cases i with
    | zero => simp only [List.drop_nil] at hhit; simp [scanFirst, hhit]
    | succ k =>
      exfalso
      have h0 := hmin 0 (Nat.succ_pos k)
      simp only [List.drop_nil] at h0 hhit
      rw [h0] at hhit
      exact Option.noConfusion hhit
  | cons c rest ih =>
    cases i with
    | zero =>
      simp only [List.drop_zero] at hhit
      simp [scanFirst, hhit]
    | succ k =>
      have h0 := hmin 0 (Nat.succ_pos k)
      simp only [List.drop_zero] at h0
      have hrec : scanFirst test rest = some (k, a) := by
        apply ih
        · simpa using hhit
        · intro j hj
          have := hmin (j + 1) (Nat.succ_lt_succ hj)
          simpa using this
      simp [scanFirst, h0, hrec]

theorem scanFirst_eq_none_of {α : Type} (test : List Char → Option α)
    (l : List Char)
    (hnone : ∀ j, test (l.drop j) = none) :
    scanFirst test l = none := by
  induction l with
  | nil =>
    have h0 := hnone 0
    simp only [List.drop_nil] at h0
    simp [scanFirst, h0]
  | cons c rest ih =>
    have h0 := hnone 0
    simp only [List.drop_zero] at h0
    have hrec : scanFirst test rest = none := by
      apply ih
      intro j
      have := hnone (j + 1)
      simpa using this
    simp [scanFirst, h0, hrec]

theorem indexOfSub_eq_some_of (l pat : List Char) (i : Nat)
    (hocc : occursAt l pat i)
    (hmin : ∀ j < i, ¬ occursAt l pat j) :
    indexOfSub l pat = some i := by
  unfold indexOfSub
  have hhit : (fun suf => if pat.isPrefixOf suf then some () else none) (l.drop i) =
      some () := by
    have : pat.isPrefixOf (l.drop i) = true := List.isPrefixOf_iff_prefix.mpr hocc
    simp [this]
  have hmin2 : ∀ j < i,
      (fun suf => if pat.isPrefixOf suf then some () else none) (l.drop j) = none := by
    intro j hj
    have : ¬ pat.isPrefixOf (l.drop j) = true := by
      intro hp
      exact hmin j hj (List.isPrefixOf_iff_prefix.mp hp)
    simp [this]
  rw [scanFirst_eq_some_of _ l i () hhit hmin2]
  rfl

theorem indexOfSub_eq_none_of (l pat : List Char)
    (hnone : ∀ j, ¬ occursAt l pat j) :
    indexOfSub l pat = none := by
  unfold indexOfSub
  rw [scanFirst_eq_none_of]
  · rfl
  · intro j
    have : ¬ pat.isPrefixOf (l.drop j) = true := by
      intro hp
      exact hnone j (List.isPrefixOf_iff_prefix.mp hp)
    simp [this]

/-- Occurrences of a non-empty pattern need at least one character of room,
so the unbounded no-occurrence hypothesis reduces to a bounded check. -/
theorem not_occurs_of_forall_lt (l pat : List Char) (hne : pat ≠ [])
    (h : ∀ i < l.length, ¬ occursAt l pat i) :
    ∀ i, ¬ occursAt l pat i := by
  intro i hocc
  by_cases hi : i < l.length
  · exact h i hi hocc
  · have hdrop : l.drop i = [] := List.drop_eq_nil_of_le (Nat.le_of_not_lt hi)
    unfold occursAt at hocc
    rw [hdrop] at hocc
    exact hne (List.prefix_nil.mp hocc)

theorem digitRun_eq_nil_iff (l : List Char) :
    digitRun l = [] ↔ headDigit l = false := by
  cases l with
  | nil => simp [digitRun, headDigit]
  | cons c rest =>
    by_cases hd : c.isDigit
    · simp [digitRun, headDigit, List.takeWhile_cons, hd]
    · simp [digitRun, headDigit, List.takeWhile_cons, hd]

theorem endHere_eq_none_iff (marker suf : List Char) :
    endHere marker suf = none ↔ endSpecHit suf marker = false := by
  unfold endHere endSpecHit
  by_cases hp : (marker ++ ("-END:").toList).isPrefixOf suf = true
  · rw [if_pos hp, hp, Bool.true_and]
    by_cases hd : digitRun (suf.drop (marker ++ ("-END:").toList).length) = []
    · rw [if_pos hd]
      exact iff_of_true rfl ((digitRun_eq_nil_iff _).mp hd)
    · rw [if_neg hd]
      constructor
      · intro h; exact absurd h (by simp)
      · intro h; exact absurd ((digitRun_eq_nil_iff _).mpr h) hd
  · have hp2 : (marker ++ ("-END:").toList).isPrefixOf suf = false :=
      Bool.eq_false_iff.mpr hp
    rw [if_neg hp, hp2, Bool.false_and]
    exact iff_of_true rfl rfl

theorem digitRun_append_of (ds y : List Char) (hds : ∀ c ∈ ds, c.isDigit)
    (hy : headDigit y = false) : digitRun (ds ++ y) = ds := by
  induction ds with
  | nil =>
    simpa [digitRun] using (digitRun_eq_nil_iff y).mpr hy
  | cons c rest ih =>
    have hc : c.isDigit := hds c (by simp)
    have hrest : digitRun (rest ++ y) = rest :=
      ih (fun d hd => hds d (by simp [hd]))
    simpa [digitRun, List.takeWhile_cons, hc] using hrest

theorem endSpecHit_false_of_forall_lt (l marker : List Char)
    (h : ∀ k < l.length, endSpecHit (l.drop k) marker = false) :
    ∀ k, endSpecHit (l.drop k) marker = false := by
  intro k
  by_cases hk : k < l.length
  · exact h k hk
  · rw [List.drop_eq_nil_of_le (le_of_not_lt hk)]
    unfold endSpecHit
    have hne : (marker ++ ("-END:").toList).isPrefixOf ([] : List Char) = false := by
      cases hm : marker ++ ("-END:").toList with
      | nil => exact absurd (congrArg List.length hm) (by simp)
      | cons a t => rfl
    simp [hne]

/-! ### C1 and C2: the marked-content extraction claims -/

/-- C1: for every content of the shape
noise ++ marker-START ++ mid ++ marker-END:digits ++ noise, where the
start token shown is its first occurrence, the end match shown is the
first one after the start token, and the trailing noise does not extend
the digit run, extractMarkedContent returns the text strictly between the
two markers trimmed of surrounding whitespace together with the digits
parsed as the exit code, independent of the surrounding noise. -/
theorem extract_marked_wellformed
    (x mid ds y : List Char) (m : String)
    (hds : ds ≠ [] ∧ ∀ c ∈ ds, c.isDigit)
    (hfirst : ∀ j < x.length,
      ¬ occursAt (x ++ (m ++ "-START").toList ++ mid ++ m.toList ++ ("-END:").toList ++ ds ++ y)
        ((m ++ "-START").toList) j)
    (hnoend : ∀ j < mid.length,
      endSpecHit ((mid ++ m.toList ++ ("-END:").toList ++ ds ++ y).drop j) m.toList = false)
    (hy : headDigit y = false) :
    extractMarkedContent
        ((x ++ (m ++ "-START").toList ++ mid ++ m.toList ++ ("-END:").toList ++ ds ++ y).asString) m
      = ⟨(jsTrim mid).asString, (digitsToNat ds : Int)⟩ := by
  set startTok := (m ++ "-START").toList with hst
  set rest2 := m.toList ++ ("-END:").toList ++ ds ++ y with hr2
  set rest := mid ++ m.toList ++ ("-END:").toList ++ ds ++ y with hr
  have hr' : rest = mid ++ rest2 := by
    simp [hr, hr2, List.append_assoc]
  set content := x ++ startTok ++ mid ++ m.toList ++ ("-END:").toList ++ ds ++ y with hc
  have htl : (content.asString).toList = content := rfl
  have hcontent : content = (x ++ startTok) ++ rest := by
    simp [hc, hr, hr2, List.append_assoc]
  have hocc : occursAt content startTok x.length := by
    unfold occursAt
    rw [hcontent, List.append_assoc, List.drop_left]
    exact List.prefix_append startTok rest
  have hindex : indexOfSub content startTok = some x.length :=
    indexOfSub_eq_some_of content startTok x.length hocc (by
      intro j hj
      exact hfirst j hj)
  have hdrop : content.drop (x.length + startTok.length) = rest := by
    rw [hcontent, ← List.length_append]
    exact List.drop_left (x ++ startTok) rest
  have hpre : rest2 = (m.toList ++ ("-END:").toList) ++ (ds ++ y) := by
    simp [hr2, List.append_assoc]
  have hhit : endHere m.toList (rest.drop mid.length) = some ds := by
    have hdm : rest.drop mid.length = rest2 := by
      rw [hr']; exact List.drop_left mid rest2
    rw [hdm]
    unfold endHere
    have hp : (m.toList ++ ("-END:").toList).isPrefixOf rest2 = true := by
      rw [List.isPrefixOf_iff_prefix, hpre]
      exact List.prefix_append _ _
    rw [if_pos hp]
    have hd2 : rest2.drop (m.toList ++ ("-END:").toList).length = ds ++ y := by
      rw [hpre]; exact List.drop_left _ _
    rw [hd2, digitRun_append_of ds y hds.2 hy, if_neg hds.1]
  have hfind : findEnd m.toList rest = some (mid.length, ds) := by
    unfold findEnd
    apply scanFirst_eq_some_of _ _ _ _ hhit
    intro j hj
    exact (endHere_eq_none_iff m.toList (rest.drop j)).mpr (hnoend j hj)
  have htake : rest.take mid.length = mid := by
    rw [hr']; exact List.take_left mid rest2
  unfold extractMarkedContent
  rw [htl, hindex]
  simp only []
  rw [hdrop, hfind]
  simp only []
  rw [htake]

/-- C1 witness: the specification example, with marker M and noise X / Y:
extract("XM-STARTfooBARM-END:7Y", "M") = (content "fooBAR", exit code 7). -/
theorem extract_marked_wellformed_witness :
    extractMarkedContent "XM-STARTfooBARM-END:7Y" "M" = ⟨"fooBAR", 7⟩ := by
  have h := extract_marked_wellformed "X".toList "fooBAR".toList ["7".toList.head!] "Y".toList "M"
    (by constructor <;> decide) (by decide) (by decide) (by decide)
  have e1 : (("X".toList ++ ("M" ++ "-START").toList ++ "fooBAR".toList ++ "M".toList
      ++ ("-END:").toList ++ ["7".toList.head!] ++ "Y".toList).asString)
      = "XM-STARTfooBARM-END:7Y" := by decide
  have e2 : ((jsTrim "fooBAR".toList).asString : String) = "fooBAR" := by decide
  have e3 : (digitsToNat ["7".toList.head!] : Int) = 7 := by decide
  rw [e1, e2, e3] at h
  exact h

/-- C2: extraction is total and uses exit code -1 as the sentinel: when the
start token does not occur at all the result is empty content with code -1,
and when the start token occurs but no end match follows it the result is
everything after the start token with code -1. -/
theorem extract_marked_sentinel (full m : String) :
    ((∀ i, ¬ occursAt full.toList ((m ++ "-START").toList) i) →
      extractMarkedContent full m = ⟨"", -1⟩)
    ∧ (∀ i, occursAt full.toList ((m ++ "-START").toList) i →
        (∀ j < i, ¬ occursAt full.toList ((m ++ "-START").toList) j) →
        (∀ k, endSpecHit ((full.toList.drop (i + ((m ++ "-START").toList).length)).drop k)
            m.toList = false) →
        extractMarkedContent full m
          = ⟨(full.toList.drop (i + ((m ++ "-START").toList).length)).asString, -1⟩) := by
  constructor
  · intro hno
    have hidx : indexOfSub full.toList ((m ++ "-START").toList) = none :=
      indexOfSub_eq_none_of _ _ hno
    unfold extractMarkedContent
    rw [hidx]
  · intro i hocc hmin hend
    have hidx : indexOfSub full.toList ((m ++ "-START").toList) = some i :=
      indexOfSub_eq_some_of _ _ i hocc hmin
    have hfind : findEnd m.toList
        (full.toList.drop (i + ((m ++ "-START").toList).length)) = none := by
      unfold findEnd
      apply scanFirst_eq_none_of
      intro j
      exact (endHere_eq_none_iff m.toList _).mpr (hend j)
    unfold extractMarkedContent
    rw [hidx]
    simp only []
    rw [hfind]

/-- C2 witness: a content without the start token yields empty content and
code -1; a content with the start token but no end marker yields everything
after the start token and code -1. -/
theorem extract_marked_sentinel_witness :
    extractMarkedContent "hello world" "M" = ⟨"", -1⟩
    ∧ extractMarkedContent "aM-STARTtail out" "M" = ⟨"tail out", -1⟩ := by
  constructor
  · exact (extract_marked_sentinel "hello world" "M").1
      (not_occurs_of_forall_lt _ _ (by decide) (by decide))
  · have h := (extract_marked_sentinel "aM-STARTtail out" "M").2 1
      (by decide) (by decide)
      (endSpecHit_false_of_forall_lt _ _ (by decide))
    have e1 : (("aM-STARTtail out".toList.drop
        (1 + (("M" ++ "-START").toList).length)).asString : String) = "tail out" := by decide
    rw [e1] at h
    exact h

/-! ### C3: retry behaviour of the automation channel client -/

theorem executeWithRetry_timeout_all_failed (env : Nat → AttemptOutcome)
    (t rs : Nat) :
    ∀ remaining idx msg,
      executeWithRetry env t rs idx remaining = RunResult.rejectedTimeout msg →
      ∀ k ≤ remaining, ∀ out, env (idx + k) ≠ AttemptOutcome.completes out := by
  intro remaining
  induction remaining with
  | zero =>
    intro idx msg h k hk out hc
    have hk0 : k = 0 := Nat.le_zero.mp hk
    subst hk0
    rw [Nat.add_zero] at hc
    rw [executeWithRetry, hc] at h
    exact RunResult.noConfusion h
  | succ r ih =>
    intro idx msg h k hk out hc
    rw [executeWithRetry] at h
    cases he : env idx with
    | completes o =>
      rw [he] at h
      exact RunResult.noConfusion h
    | timesOut =>
      rw [he] at h
      cases k with
      | zero =>
        rw [Nat.add_zero] at hc
        rw [hc] at he
        exact AttemptOutcome.noConfusion he
      | succ j =>
        have hidx : idx + (j + 1) = idx + 1 + j := by omega
        rw [hidx] at hc
        exact ih (idx + 1) msg h j (Nat.le_of_succ_le_succ hk) out hc
    | fails m =>
      rw [he] at h
      have h2 : (if isTransientErr m = true then executeWithRetry env t rs (idx + 1) r
          else RunResult.rejectedFailed ("AppleScript execution failed: " ++ m))
          = RunResult.rejectedTimeout msg := h
      by_cases htr : isTransientErr m = true
      · rw [if_pos htr] at h2
        cases k with
        | zero =>
          rw [Nat.add_zero] at hc
          rw [hc] at he
          exact AttemptOutcome.noConfusion he
        | succ j =>
          have hidx : idx + (j + 1) = idx + 1 + j := by omega
          rw [hidx] at hc
          exact ih (idx + 1) msg h2 j (Nat.le_of_succ_le_succ hk) out hc
      · rw [if_neg htr] at h2
        exact RunResult.noConfusion h2

/-- C3: with retries = 2 (two extra attempts after the first), two timed
out attempts followed by an attempt that completes within the window make
runAppleScript resolve with the successful attempt output; and a timeout
rejection can only arise when no attempt at all completed within the
window. -/
theorem runAppleScript_retry_behaviour :
    (∀ (env : Nat → AttemptOutcome) (t : Nat) (out : String),
      env 0 = AttemptOutcome.timesOut → env 1 = AttemptOutcome.timesOut →
      env 2 = AttemptOutcome.completes out →
      runAppleScript env t 2 = RunResult.resolved (jsTrimStr out))
    ∧ (∀ (env : Nat → AttemptOutcome) (t r : Nat) (msg : String),
      runAppleScript env t r = RunResult.rejectedTimeout msg →
      ∀ i ≤ r, ∀ out, env i ≠ AttemptOutcome.completes out) := by
  constructor
  · intro env t out h0 h1 h2
    rw [runAppleScript, executeWithRetry, h0, executeWithRetry, h1,
      executeWithRetry, h2]
  · intro env t r msg h i hi out
    have := executeWithRetry_timeout_all_failed env t r r 0 msg h i hi out
    simpa using this

/-- Concrete attempt sequence that times out twice and then completes. -/
def envTwoTimeouts : Nat → AttemptOutcome :=
  fun i => if i = 2 then AttemptOutcome.completes "ok" else AttemptOutcome.timesOut

/-- Concrete attempt sequence in which every attempt times out. -/
def envAllTimeouts : Nat → AttemptOutcome :=
  fun _ => AttemptOutcome.timesOut

/-- C3 witness: the two-timeouts-then-success run resolves with the
successful output, and the all-timeouts run (which rejects with the
timeout message) indeed has no completing attempt. -/
theorem runAppleScript_retry_witness :
    runAppleScript envTwoTimeouts 10000 2 = RunResult.resolved "ok"
    ∧ (∀ i ≤ 2, ∀ out, envAllTimeouts i ≠ AttemptOutcome.completes out) := by
  constructor
  · have h := runAppleScript_retry_behaviour.1 envTwoTimeouts 10000 "ok"
      (by decide) (by decide) (by decide)
    have e : jsTrimStr "ok" = "ok" := by decide
    rw [e] at h
    exact h
  · exact runAppleScript_retry_behaviour.2 envAllTimeouts 10000 2
      ("AppleScript execution timed out after 10000ms and 2 retries") (by rfl)

/-! ### C4: escaping and the decode round trip -/

theorem cmap_append (f : Char → List Char) (a b : List Char) :
    cmap f (a ++ b) = cmap f a ++ cmap f b := by
  induction a with
  | nil => rfl
  | cons c rest ih => simp [cmap, ih]

theorem escapeList_append (a b : List Char) :
    escapeList (a ++ b) = escapeList a ++ escapeList b := by
  simp [escapeList, cmap_append]

theorem escapeList_cons (c : Char) (l : List Char) :
    escapeList (c :: l) = escapeList [c] ++ escapeList l := by
  have : (c :: l) = [c] ++ l := rfl
  rw [this, escapeList_append]

theorem escapeList_singleton_plain (c : Char)
    (h1 : c ≠ '\\') (h2 : c ≠ '"') (h3 : c ≠ sq) (h4 : c ≠ '\n')
    (h5 : c ≠ '\r') (h6 : c ≠ '\t') (h7 : ¬ 127 < c.toNat) :
    escapeList [c] = [c] := by
  simp [escapeList, cmap, escStep1, escStep2, escStep3, escStep4, escStep5,
    escStep6, escStep7, h1, h2, h3, h4, h5, h6, h7]

theorem appleScriptUnescape_cons_plain (c : Char) (rest : List Char)
    (h : c ≠ '\\') :
    appleScriptUnescape (c :: rest) = c :: appleScriptUnescape rest := by
  rw [appleScriptUnescape.eq_def]
  simp only []
  rw [if_neg h]

theorem appleScriptUnescape_cons_escape (d : Char) (rest : List Char) :
    appleScriptUnescape ('\\' :: d :: rest) = asEsc d :: appleScriptUnescape rest := rfl

theorem sda_true_quote (X : List Char) :
    shellDecodeAux true (sq :: X) = shellDecodeAux false X := by
  rw [shellDecodeAux.eq_def]
  simp only []
  simp

theorem sda_false_quote (X : List Char) :
    shellDecodeAux false (sq :: X) = shellDecodeAux true X := by
  rw [shellDecodeAux.eq_def]
  simp only []
  simp

theorem sda_false_esc (d : Char) (X : List Char) :
    shellDecodeAux false ('\\' :: d :: X)
      = (shellDecodeAux false X).map (fun l => d :: l) := by
  rw [shellDecodeAux.eq_def]
  simp only []
  simp
  intro h
  exact absurd h (by decide)

theorem sda_true_plain (c : Char) (X : List Char) (h : c ≠ sq) :
    shellDecodeAux true (c :: X)
      = (shellDecodeAux true X).map (fun l => c :: l) := by
  rw [shellDecodeAux.eq_def]
  simp only []
  rw [if_neg h]

theorem shellDecodeAux_inside (l : List Char) :
    shellDecodeAux true (shellArgEscape l ++ [sq]) = some l := by
  induction l with
  | nil =>
    rw [show shellArgEscape [] ++ [sq] = [sq] from rfl, sda_true_quote]
    rfl
  | cons c rest ih =>
    by_cases hc : c = sq
    · subst hc
      have e : shellArgEscape (sq :: rest) ++ [sq]
          = sq :: '\\' :: sq :: sq :: (shellArgEscape rest ++ [sq]) := by
        show ((if sq = sq then [sq, '\\', sq, sq] else [sq]) ++ shellArgEscape rest) ++ [sq]
          = sq :: '\\' :: sq :: sq :: (shellArgEscape rest ++ [sq])
        rw [if_pos rfl]
        simp
      rw [e, sda_true_quote, sda_false_esc, sda_false_quote, ih]
      rfl
    · have e : shellArgEscape (c :: rest) ++ [sq] = c :: (shellArgEscape rest ++ [sq]) := by
        show ((if c = sq then [sq, '\\', sq, sq] else [c]) ++ shellArgEscape rest) ++ [sq]
          = c :: (shellArgEscape rest ++ [sq])
        rw [if_neg hc]
        simp
      rw [e, sda_true_plain c _ hc, ih]
      rfl

theorem escapeList_ascii_id (l : List Char)
    (h : ∀ c ∈ l, c.toNat ≤ 127 ∧ c ≠ sq) :
    appleScriptUnescape (escapeList l) = l := by
  induction l with
  | nil => rfl
  | cons c rest ih =>
    have hc := h c (by simp)
    have hrest : appleScriptUnescape (escapeList rest) = rest :=
      ih (fun d hd => h d (by simp [hd]))
    rw [escapeList_cons]
    by_cases h1 : c = '\\'
    · subst h1
      have e : escapeList ['\\'] = ['\\', '\\'] := by decide
      rw [e]
      show appleScriptUnescape ('\\' :: '\\' :: escapeList rest) = '\\' :: rest
      rw [appleScriptUnescape_cons_escape]
      have : asEsc '\\' = '\\' := by decide
      rw [this, hrest]
    · by_cases h2 : c = '"'
      · subst h2
        have e : escapeList ['"'] = ['\\', '"'] := by decide
        rw [e]
        show appleScriptUnescape ('\\' :: '"' :: escapeList rest) = '"' :: rest
        rw [appleScriptUnescape_cons_escape]
        have : asEsc '"' = '"' := by decide
        rw [this, hrest]
      · by_cases h4 : c = '\n'
        · subst h4
          have e : escapeList ['\n'] = ['\\', 'n'] := by decide
          rw [e]
          show appleScriptUnescape ('\\' :: 'n' :: escapeList rest) = '\n' :: rest
          rw [appleScriptUnescape_cons_escape]
          have : asEsc 'n' = '\n' := by decide
          rw [this, hrest]
        · by_cases h5 : c = '\r'
          · subst h5
            have e : escapeList ['\r'] = ['\\', 'r'] := by decide
            rw [e]
            show appleScriptUnescape ('\\' :: 'r' :: escapeList rest) = '\r' :: rest
            rw [appleScriptUnescape_cons_escape]
            have : asEsc 'r' = '\r' := by decide
            rw [this, hrest]
          · by_cases h6 : c = '\t'
            · subst h6
              have e : escapeList ['\t'] = ['\\', 't'] := by decide
              rw [e]
              show appleScriptUnescape ('\\' :: 't' :: escapeList rest) = '\t' :: rest
              rw [appleScriptUnescape_cons_escape]
              have : asEsc 't' = '\t' := by decide
              rw [this, hrest]
            · have h7 : ¬ 127 < c.toNat := by
                intro hgt
                exact absurd hc.1 (by omega)
              rw [escapeList_singleton_plain c h1 h2 hc.2 h4 h5 h6 h7]
              show appleScriptUnescape (c :: escapeList rest) = c :: rest
              rw [appleScriptUnescape_cons_plain c _ h1, hrest]

/-- C4 counterexample: a string containing a backslash, a double quote, a
newline, a carriage return, a tab and a non-ASCII character does NOT
survive the escape-embed-decode round trip: the generated backslash-u
escape is not an AppleScript escape, so the decoded string differs from
the original. -/
theorem escape_roundtrip_counterexample :
    ('\\' ∈ roundTripProbe.toList ∧ '"' ∈ roundTripProbe.toList
      ∧ '\n' ∈ roundTripProbe.toList ∧ '\r' ∈ roundTripProbe.toList
      ∧ '\t' ∈ roundTripProbe.toList
      ∧ ∃ c ∈ roundTripProbe.toList, 127 < c.toNat)
    ∧ escapeDecodeRoundTrip roundTripProbe ≠ roundTripProbe := by
  constructor
  · refine ⟨by decide, by decide, by decide, by decide, by decide, ⟨Char.ofNat 233, by decide, by decide⟩⟩
  · decide

/-- C4 amended: the shell quoting layer added by runAppleScript is exactly
inverted by the shell for every script, and the escape round trip through
the AppleScript string literal restores the original string exactly for
strings of ASCII characters that contain no single quote (backslashes,
double quotes, newlines, carriage returns and tabs round-trip; non-ASCII
characters and single quotes do not). -/
theorem escape_roundtrip_amended :
    (∀ (script : List Char),
      shellDecodeAux false (sq :: (shellArgEscape script ++ [sq])) = some script)
    ∧ (∀ s : String, (∀ c ∈ s.toList, c.toNat ≤ 127 ∧ c ≠ sq) →
      escapeDecodeRoundTrip s = s) := by
  constructor
  · intro script
    rw [sda_false_quote]
    exact shellDecodeAux_inside script
  · intro s h
    unfold escapeDecodeRoundTrip escapeForAppleScript
    have e : ((escapeList s.toList).asString).toList = escapeList s.toList := rfl
    rw [e, escapeList_ascii_id s.toList h]
    cases s with
    | mk data => rfl

/-- C4 amended witness: a concrete ASCII string with a backslash, a double
quote, a newline, a carriage return and a tab round-trips exactly, and a
concrete script is restored exactly by the shell layer. -/
theorem escape_roundtrip_amended_witness :
    shellDecodeAux false (sq :: (shellArgEscape "tell \"x\"".toList ++ [sq]))
      = some "tell \"x\"".toList
    ∧ escapeDecodeRoundTrip "a\\b\"c\nd\re\tf" = "a\\b\"c\nd\re\tf" := by
  constructor
  · exact escape_roundtrip_amended.1 "tell \"x\"".toList
  · exact escape_roundtrip_amended.2 "a\\b\"c\nd\re\tf" (by decide)

/-! ### Validation helper lemmas -/

theorem validateTabIndex_natCast (i : Nat) :
    validateTabIndex (JSVal.num (i : Rat)) = none := by
  have h : ¬((i : Rat) < 0 ∨ ((i : Rat)).isInt = false) := by
    push_neg
    exact ⟨by positivity, by simp [Rat.isInt]⟩
  show (if (i : Rat) < 0 ∨ ((i : Rat)).isInt = false then
      some ("Error: tab parameter must be a non-negative integer, got " ++ ratRepr (i : Rat))
    else none) = none
  rw [if_neg h]

theorem asInt_natCast (i : Nat) : (JSVal.num (i : Rat)).asInt = (i : Int) := by
  simp [JSVal.asInt]

/-! ### C5: tail_tab_single out-of-bounds handling -/

/-- C5: when the requested tab index is a non-negative integer at or above
the parsed tab count, the tail_tab_single handler returns the out-of-bounds
error text naming the index and the actual tab count, and the only channel
call issued is the tab-count check (in particular the tab content is never
fetched). -/
theorem tail_tab_single_out_of_bounds
    (args : Args) (env : ChanEnv) (i n : Nat) (s : String)
    (htab : args.tab = JSVal.num (i : Rat))
    (hlines : validateLines
      (if args.lines = JSVal.undef then JSVal.num 50 else args.lines) "lines" = none)
    (hcount : env.exec Call.tabCount = Except.ok s)
    (hparse : parseIntJS s = some (n : Int))
    (hge : n ≤ i) :
    commands.TailTabSingle args env
      = (Except.ok (createError ("Error: Tab index " ++ toString (i : Int)
          ++ " is out of bounds. There are only " ++ toString (n : Int) ++ " tabs.")),
        [Call.tabCount]) := by
  unfold commands.TailTabSingle
  rw [htab, validateTabIndex_natCast]
  simp only []
  rw [hlines]
  simp only []
  rw [asInt_natCast]
  unfold tailTabSingleCore
  rw [hcount]
  simp only []
  rw [hparse]
  have hcond : (decide ((i : Int) < 0) || jsGeOpt (i : Int) (some (n : Int))) = true := by
    simp [jsGeOpt]
    exact Or.inr (by exact_mod_cast hge)
  rw [hcond]
  simp only [if_true]
  rfl

/-- Environment with three tabs, used by the out-of-bounds witness. -/
def envThreeTabs : ChanEnv :=
  ⟨fun c =>
    match c with
    | Call.tabCount => Except.ok "3"
    | _ => Except.ok "", "===ab12-1000==="⟩

/-- C5 witness: requesting tab 5 when 3 tabs exist yields the out-of-bounds
message naming 3 tabs, with only the count call issued. -/
theorem tail_tab_single_out_of_bounds_witness :
    commands.TailTabSingle
        ⟨JSVal.num 5, JSVal.undef, JSVal.undef, JSVal.undef, JSVal.undef, JSVal.undef⟩
        envThreeTabs
      = (Except.ok (createError "Error: Tab index 5 is out of bounds. There are only 3 tabs."),
        [Call.tabCount]) := by
  have h := tail_tab_single_out_of_bounds
    ⟨JSVal.num 5, JSVal.undef, JSVal.undef, JSVal.undef, JSVal.undef, JSVal.undef⟩
    envThreeTabs 5 3 "3" (by decide) (by decide) rfl (by decide) (by decide)
  have e : ("Error: Tab index " ++ toString ((5 : Nat) : Int)
      ++ " is out of bounds. There are only " ++ toString ((3 : Nat) : Int) ++ " tabs.")
      = "Error: Tab index 5 is out of bounds. There are only 3 tabs." := by decide
  rw [e] at h
  exact h

/-! ### C7: partial-failure isolation of getAllTabInfo -/

/-- C7: once the tab count call returns a string parsing to n, the query
layer issues the tab-count call followed by exactly the info calls for
indices 0 through n-1 in order, and returns exactly n snapshots: index i
holds the parsed info when the call succeeded and otherwise the
substituted snapshot whose content records the error message — a per-tab
failure never aborts the listing. -/
theorem get_all_tab_info_isolation (env : ChanEnv) (s : String) (n : Nat)
    (hcount : env.exec Call.tabCount = Except.ok s)
    (hparse : parseIntJS s = some (n : Int)) :
    (getAllTabInfo env).2 = Call.tabCount :: (List.range n).map (fun i => Call.tabInfo i)
    ∧ ∃ l, (getAllTabInfo env).1 = Except.ok l ∧ l.length = n
      ∧ ∀ i (hi : i < l.length),
          l.get ⟨i, hi⟩ = (match env.exec (Call.tabInfo i) with
            | Except.ok d => parseSingleTabInfo d i
            | Except.error msg =>
              ⟨i, "Tab " ++ Nat.repr i, false, "Error accessing tab: " ++ msg⟩) := by
  unfold getAllTabInfo
  rw [hcount]
  simp only []
  rw [hparse]
  simp only [Int.toNat_natCast]
  constructor
  · trivial
  refine ⟨(List.range n).map (tabInfoOutcome env), rfl, by simp, ?_⟩
  intro i hi
  simp only [List.length_map, List.length_range] at hi
  simp only [List.get_eq_getElem, List.getElem_map, List.getElem_range]
  unfold tabInfoOutcome errorSnapshot
  rfl

/-- Environment with two tabs in which fetching tab 1 fails. -/
def envMixedTabs : ChanEnv :=
  ⟨fun c =>
    match c with
    | Call.tabCount => Except.ok "2"
    | Call.tabInfo 0 => Except.ok "TAB_NAME:one\nTAB_IS_RUNNING:false\nTAB_CONTENT:hello"
    | Call.tabInfo _ => Except.error "boom"
    | _ => Except.ok "", "===cd34-2000==="⟩

/-- C7 witness: with two tabs of which the second fails, the listing still
has exactly two entries, the failing one recording the error. -/
theorem get_all_tab_info_isolation_witness :
    (getAllTabInfo envMixedTabs).2
        = Call.tabCount :: (List.range 2).map (fun i => Call.tabInfo i)
    ∧ ∃ l, (getAllTabInfo envMixedTabs).1 = Except.ok l ∧ l.length = 2
      ∧ ∀ i (hi : i < l.length),
          l.get ⟨i, hi⟩ = (match envMixedTabs.exec (Call.tabInfo i) with
            | Except.ok d => parseSingleTabInfo d i
            | Except.error msg =>
              ⟨i, "Tab " ++ Nat.repr i, false, "Error accessing tab: " ++ msg⟩) :=
  get_all_tab_info_isolation envMixedTabs "2" 2 rfl (by decide)

/-! ### C8: control_code validation and byte computation -/

theorem startsError_append (pre suf : String) (h : startsError pre) :
    startsError (pre ++ suf) := by
  unfold startsError at h ⊢
  have e : (pre ++ suf).toList = pre.toList ++ suf.toList := rfl
  rw [e, List.take_append_eq_append_take]
  have hlen : 5 ≤ pre.toList.length := by
    have hc := congrArg List.length h
    simp only [List.length_take] at hc
    have : ("Error").toList.length = 5 := by decide
    omega
  rw [Nat.sub_eq_zero_of_le hlen, List.take_zero, List.append_nil, h]

theorem validateTabIndex_error_starts (v : JSVal) (e : String)
    (h : validateTabIndex v = some e) : startsError e := by
  cases v with
  | undef =>
    have h2 : some "Error: tab parameter is required." = some e := h
    rw [← Option.some.inj h2]
    decide
  | num q =>
    have h2 : (if q < 0 ∨ q.isInt = false then
        some ("Error: tab parameter must be a non-negative integer, got " ++ ratRepr q)
      else none) = some e := h
    by_cases hc : q < 0 ∨ q.isInt = false
    · rw [if_pos hc] at h2
      rw [← Option.some.inj h2]
      exact startsError_append _ _ (by decide)
    · rw [if_neg hc] at h2
      exact Option.noConfusion h2
  | str s =>
    have h2 : some ("Error: tab parameter must be a non-negative integer, got "
        ++ jsonStringifyLite (JSVal.str s)) = some e := h
    rw [← Option.some.inj h2]
    exact startsError_append _ _ (by decide)
  | null =>
    have h2 : some ("Error: tab parameter must be a non-negative integer, got "
        ++ jsonStringifyLite JSVal.null) = some e := h
    rw [← Option.some.inj h2]
    exact startsError_append _ _ (by decide)
  | boolV b =>
    have h2 : some ("Error: tab parameter must be a non-negative integer, got "
        ++ jsonStringifyLite (JSVal.boolV b)) = some e := h
    rw [← Option.some.inj h2]
    exact startsError_append _ _ (by decide)
  | obj =>
    have h2 : some ("Error: tab parameter must be a non-negative integer, got "
        ++ jsonStringifyLite JSVal.obj) = some e := h
    rw [← Option.some.inj h2]
    exact startsError_append _ _ (by decide)

theorem validateLetter_invalid_starts (v : JSVal) (e : String)
    (h : validateLetter v = Except.ok (LetterCheck.invalid e)) : startsError e := by
  unfold validateLetter at h
  by_cases hf : v.falsy = true
  · rw [if_pos hf] at h
    have h2 := LetterCheck.invalid.inj (Except.ok.inj h)
    rw [← h2]
    decide
  · rw [if_neg hf] at h
    cases v with
    | str s =>
      simp only [] at h
      cases hm : s.toList.map jsUpperChar with
      | nil =>
        rw [hm] at h
        have h2 := LetterCheck.invalid.inj (Except.ok.inj h)
        rw [← h2]
        decide
      | cons c rest =>
        cases rest with
        | nil =>
          rw [hm] at h
          have h3 : (if decide (65 ≤ c.toNat) && decide (c.toNat ≤ 90) then
              Except.ok (LetterCheck.valid c)
            else Except.ok (LetterCheck.invalid
              "Error: Letter must be a single character from A-Z.")) =
              Except.ok (LetterCheck.invalid e) := h
          by_cases hc : (decide (65 ≤ c.toNat) && decide (c.toNat ≤ 90)) = true
          · rw [if_pos hc] at h3
            exact absurd (Except.ok.inj h3) (by simp)
          · rw [if_neg hc] at h3
            have h2 := LetterCheck.invalid.inj (Except.ok.inj h3)
            rw [← h2]
            decide
        | cons d rest2 =>
          rw [hm] at h
          have h2 := LetterCheck.invalid.inj (Except.ok.inj h)
          rw [← h2]
          decide
    | num q => exact Except.noConfusion h
    | undef => exact absurd rfl hf
    | null => exact absurd rfl hf
    | boolV b => exact Except.noConfusion h
    | obj => exact Except.noConfusion h

theorem validateLetter_valid_sound (v : JSVal) (c : Char)
    (h : validateLetter v = Except.ok (LetterCheck.valid c)) : validLetterArg v := by
  unfold validateLetter at h
  by_cases hf : v.falsy = true
  · rw [if_pos hf] at h
    exact absurd (Except.ok.inj h) (by simp)
  · rw [if_neg hf] at h
    cases v with
    | str s =>
      simp only [] at h
      cases hm : s.toList.map jsUpperChar with
      | nil =>
        rw [hm] at h
        exact absurd (Except.ok.inj h) (by simp)
      | cons c0 rest =>
        cases rest with
        | nil =>
          rw [hm] at h
          have h3 : (if decide (65 ≤ c0.toNat) && decide (c0.toNat ≤ 90) then
              Except.ok (LetterCheck.valid c0)
            else Except.ok (LetterCheck.invalid
              "Error: Letter must be a single character from A-Z.")) =
              Except.ok (LetterCheck.valid c) := h
          by_cases hc : (decide (65 ≤ c0.toNat) && decide (c0.toNat ≤ 90)) = true
          · rw [if_pos hc] at h3
            have h4 := LetterCheck.valid.inj (Except.ok.inj h3)
            simp only [Bool.and_eq_true, decide_eq_true_eq] at hc
            exact ⟨s, c0, rfl, hm, hc.1, hc.2⟩
          · rw [if_neg hc] at h3
            exact absurd (Except.ok.inj h3) (by simp)
        | cons d rest2 =>
          rw [hm] at h
          exact absurd (Except.ok.inj h) (by simp)
    | num q => exact Except.noConfusion h
    | undef => exact absurd rfl hf
    | null => exact absurd rfl hf
    | boolV b => exact Except.noConfusion h
    | obj => exact Except.noConfusion h

theorem sendControlCode_reject (args : Args) (env : ChanEnv)
    (hnv : ¬ validLetterArg args.letter) :
    (∃ e, commands.sendControlCode args env = (Except.ok (createError e), [])
      ∧ startsError e)
    ∨ (∃ m, commands.sendControlCode args env = (Except.error m, [])) := by
  unfold commands.sendControlCode
  cases hv : validateTabIndex args.tab with
  | some e =>
    exact Or.inl ⟨e, rfl, validateTabIndex_error_starts args.tab e hv⟩
  | none =>
    cases hl : validateLetter args.letter with
    | error m => exact Or.inr ⟨m, rfl⟩
    | ok lc =>
      cases lc with
      | invalid e =>
        exact Or.inl ⟨e, rfl, validateLetter_invalid_starts args.letter e hl⟩
      | valid c =>
        exact absurd (validateLetter_valid_sound args.letter c hl) hnv

/-- C8 amended: the control_code operation rejects every letter argument
whose JS-uppercased form is not a single A-Z character, answering with an
error text and issuing no channel call; and for every accepted letter it
sends exactly the byte ord(uppercase letter) - 64 to the tab.  The
accepted letters are the single ASCII letters a-z and A-Z plus the two
non-ASCII letters dotless i (U+0131, sent as byte 9) and long s (U+017F,
sent as byte 19), so the rejection is not limited to A-Z up to ASCII case
as the original claim stated. -/
theorem control_code_validation_and_byte :
    (∀ (args : Args) (env : ChanEnv), ¬ validLetterArg args.letter →
      (handleCallTool "iterm_control_code" args env).2 = []
      ∧ ∀ item ∈ (handleCallTool "iterm_control_code" args env).1.content,
          startsError item.text)
    ∧ (∀ (args : Args) (env : ChanEnv) (i : Nat) (s : String) (c : Char) (out : String),
      args.tab = JSVal.num (i : Rat) → args.letter = JSVal.str s →
      s.toList.map jsUpperChar = [c] → 65 ≤ c.toNat → c.toNat ≤ 90 →
      env.exec (Call.sendControlChar i (c.toNat - 64)) = Except.ok out →
      handleCallTool "iterm_control_code" args env
        = (createSuccess ("Control-" ++ String.singleton c ++ " sent to tab "
            ++ toString (i : Int) ++ "."), [Call.sendControlChar i (c.toNat - 64)])) := by
  have hfind : tools.find? (fun t => t.name == "iterm_control_code")
      = some ⟨"iterm_control_code", commands.sendControlCode⟩ := rfl
  constructor
  · intro args env hnv
    unfold handleCallTool
    rw [hfind]
    simp only []
    rcases sendControlCode_reject args env hnv with ⟨e, hq, hs⟩ | ⟨m, hq⟩
    · rw [hq]
      unfold convertResult
      refine ⟨rfl, ?_⟩
      intro item hi
      simp only [createError, List.mem_singleton] at hi
      rw [hi]
      exact hs
    · rw [hq]
      unfold convertResult
      refine ⟨rfl, ?_⟩
      intro item hi
      simp only [createError, List.mem_singleton] at hi
      rw [hi]
      exact startsError_append "Error: " m (by decide)
  · intro args env i s c out htab hlet hmap h65 h90 hexec
    unfold handleCallTool
    rw [hfind]
    simp only []
    unfold commands.sendControlCode
    rw [htab, validateTabIndex_natCast]
    simp only []
    rw [hlet]
    have hsne : (JSVal.str s).falsy = false := by
      simp only [JSVal.falsy]
      refine beq_false_of_ne ?_
      intro h0
      rw [h0] at hmap
      have hmap2 : ([] : List Char) = [c] := hmap
      exact List.noConfusion hmap2
    have hvl : validateLetter (JSVal.str s) = Except.ok (LetterCheck.valid c) := by
      have h1 : (decide (65 ≤ c.toNat) && decide (c.toNat ≤ 90)) = true := by
        simp [h65, h90]
      unfold validateLetter
      rw [hsne]
      simp only [Bool.false_eq_true, if_false]
      rw [hmap]
      simp [h1]
    rw [hvl]
    simp only []
    rw [asInt_natCast]
    simp only [Int.toNat_natCast]
    rw [hexec]
    rfl

/-- Environment used by the control-code witness. -/
def envCtl : ChanEnv :=
  ⟨fun _ => Except.ok "", "===ef56-3000==="⟩

/-- C8 counterexample: the letter dotless i (U+0131) is not a single A-Z
character up to ASCII case, yet the control_code operation does not reject
it: its Unicode uppercase is I, so it passes the single-A-Z test and the
channel call sending byte 9 (Control-I) is issued with a success
response. -/
theorem control_code_unicode_counterexample :
    ¬ asciiLetterArg (JSVal.str strDotlessI)
    ∧ handleCallTool "iterm_control_code"
        ⟨JSVal.num 0, JSVal.undef, JSVal.undef, JSVal.undef, JSVal.undef,
          JSVal.str strDotlessI⟩ envCtl
      = (createSuccess "Control-I sent to tab 0.", [Call.sendControlChar 0 9]) := by
  constructor
  · rintro ⟨s, c, hs, hc, hr⟩
    rw [← JSVal.str.inj hs] at hc
    have hc2 : [Char.ofNat 305] = [c] := hc
    rw [← (List.cons.inj hc2).1] at hr
    revert hr
    decide
  · decide

/-- C8 witness: a lowercase c is uppercased and sent as byte 3 (Control-C),
the exotic letter dotless i is uppercased to I and sent as byte 9, and a
numeric letter argument produces an error response with no channel
call. -/
theorem control_code_witness :
    handleCallTool "iterm_control_code"
        ⟨JSVal.num 0, JSVal.undef, JSVal.undef, JSVal.undef, JSVal.undef, JSVal.str "c"⟩
        envCtl
      = (createSuccess ("Control-" ++ String.singleton ('C') ++ " sent to tab "
          ++ toString ((0 : Nat) : Int) ++ "."),
        [Call.sendControlChar 0 (('C').toNat - 64)])
    ∧ handleCallTool "iterm_control_code"
        ⟨JSVal.num 0, JSVal.undef, JSVal.undef, JSVal.undef, JSVal.undef,
          JSVal.str strDotlessI⟩ envCtl
      = (createSuccess ("Control-" ++ String.singleton (Char.ofNat 73) ++ " sent to tab "
          ++ toString ((0 : Nat) : Int) ++ "."),
        [Call.sendControlChar 0 ((Char.ofNat 73).toNat - 64)])
    ∧ (handleCallTool "iterm_control_code"
        ⟨JSVal.num 0, JSVal.undef, JSVal.undef, JSVal.undef, JSVal.undef, JSVal.num 5⟩
        envCtl).2 = []
    ∧ ∀ item ∈ (handleCallTool "iterm_control_code"
        ⟨JSVal.num 0, JSVal.undef, JSVal.undef, JSVal.undef, JSVal.undef, JSVal.num 5⟩
        envCtl).1.content, startsError item.text := by
  refine ⟨?_, ?_, ?_⟩
  · exact control_code_validation_and_byte.2
      ⟨JSVal.num 0, JSVal.undef, JSVal.undef, JSVal.undef, JSVal.undef, JSVal.str "c"⟩
      envCtl 0 "c" ('C') "" (by decide) rfl (by decide) (by decide) (by decide) rfl
  · exact control_code_validation_and_byte.2
      ⟨JSVal.num 0, JSVal.undef, JSVal.undef, JSVal.undef, JSVal.undef,
        JSVal.str strDotlessI⟩
      envCtl 0 strDotlessI (Char.ofNat 73) "" (by decide) rfl (by decide) (by decide)
      (by decide) rfl
  · exact control_code_validation_and_byte.1
      ⟨JSVal.num 0, JSVal.undef, JSVal.undef, JSVal.undef, JSVal.undef, JSVal.num 5⟩
      envCtl (by rintro ⟨s2, c2, hs, _⟩; exact JSVal.noConfusion hs)

/-! ### C10: lines defaulting and validation in tail_tab_all -/

/-- C10: a lines argument equal to 0 is silently replaced by the default
20 through the falsy-or default, so tail_tab_all behaves exactly as with
lines 20 and zero lines can never be requested; any negative or
non-integral numeric lines argument is rejected with the validation error
before any channel call. -/
theorem tail_tab_all_lines_defaulting :
    (∀ (tab command wait tailLines letter : JSVal) (env : ChanEnv),
      commands.TailTabAll ⟨tab, command, wait, JSVal.num 0, tailLines, letter⟩ env
        = commands.TailTabAll ⟨tab, command, wait, JSVal.num 20, tailLines, letter⟩ env)
    ∧ (∀ (args : Args) (env : ChanEnv) (q : Rat),
      args.lines = JSVal.num q → q ≠ 0 → (q < 0 ∨ q.isInt = false) →
      commands.TailTabAll args env
        = (Except.ok (createError "Error: lines parameter must be a non-negative integer"),
          [])) := by
  constructor
  · intro tab command wait tailLines letter env
    show tailTabAllCore (if (JSVal.num 0).falsy then JSVal.num 20 else JSVal.num 0) env
      = tailTabAllCore (if (JSVal.num 20).falsy then JSVal.num 20 else JSVal.num 20) env
    have h0 : (JSVal.num 0).falsy = true := by decide
    have h20 : (JSVal.num 20).falsy = false := by decide
    rw [h0, h20]
    simp
  · intro args env q hl hq hinv
    unfold commands.TailTabAll
    rw [hl]
    have hf : (JSVal.num q).falsy = false := by
      simp only [JSVal.falsy]
      exact beq_false_of_ne hq
    rw [hf]
    simp only [Bool.false_eq_true, if_false]
    unfold tailTabAllCore
    have hvl : validateLines (JSVal.num q) "lines"
        = some "Error: lines parameter must be a non-negative integer" := by
      show (if q < 0 ∨ q.isInt = false then
          some ("Error: " ++ "lines" ++ " parameter must be a non-negative integer")
        else none) = some "Error: lines parameter must be a non-negative integer"
      rw [if_pos hinv]
      decide
    rw [hvl]

/-- Environment used by the tail_tab_all witnesses. -/
def envNoTabs : ChanEnv :=
  ⟨fun _ => Except.ok "0", "===aa11-4000==="⟩

/-- C10 witness: lines 0 behaves exactly as lines 20, and lines -3 is
rejected with the validation error and an empty call trace. -/
theorem tail_tab_all_lines_defaulting_witness :
    commands.TailTabAll
        ⟨JSVal.undef, JSVal.undef, JSVal.undef, JSVal.num 0, JSVal.undef, JSVal.undef⟩
        envNoTabs
      = commands.TailTabAll
        ⟨JSVal.undef, JSVal.undef, JSVal.undef, JSVal.num 20, JSVal.undef, JSVal.undef⟩
        envNoTabs
    ∧ commands.TailTabAll
        ⟨JSVal.undef, JSVal.undef, JSVal.undef, JSVal.num (-3), JSVal.undef, JSVal.undef⟩
        envNoTabs
      = (Except.ok (createError "Error: lines parameter must be a non-negative integer"),
        []) := by
  refine ⟨?_, ?_⟩
  · exact tail_tab_all_lines_defaulting.1 JSVal.undef JSVal.undef JSVal.undef JSVal.undef
      JSVal.undef envNoTabs
  · exact tail_tab_all_lines_defaulting.2
      ⟨JSVal.undef, JSVal.undef, JSVal.undef, JSVal.num (-3), JSVal.undef, JSVal.undef⟩
      envNoTabs (-3) rfl (by decide) (Or.inl (by decide))

/-! ### C9: the implicit output-size limit -/

theorem validateLines_lines_msg (v : JSVal) (e : String)
    (h : validateLines v "lines" = some e) :
    e = "Error: lines parameter must be a non-negative integer" := by
  cases v with
  | undef => exact Option.noConfusion h
  | num q =>
    have h2 : (if q < 0 ∨ q.isInt = false then
        some ("Error: " ++ "lines" ++ " parameter must be a non-negative integer")
      else none) = some e := h
    by_cases hc : q < 0 ∨ q.isInt = false
    · rw [if_pos hc] at h2
      rw [← Option.some.inj h2]
      decide
    · rw [if_neg hc] at h2
      exact Option.noConfusion h2
  | str s =>
    have h2 : some ("Error: " ++ "lines" ++ " parameter must be a non-negative integer")
        = some e := h
    rw [← Option.some.inj h2]
    decide
  | null =>
    have h2 : some ("Error: " ++ "lines" ++ " parameter must be a non-negative integer")
        = some e := h
    rw [← Option.some.inj h2]
    decide
  | boolV b =>
    have h2 : some ("Error: " ++ "lines" ++ " parameter must be a non-negative integer")
        = some e := h
    rw [← Option.some.inj h2]
    decide
  | obj =>
    have h2 : some ("Error: " ++ "lines" ++ " parameter must be a non-negative integer")
        = some e := h
    rw [← Option.some.inj h2]
    decide

theorem trimOutput_length_le (s : String) (m : Nat) :
    (trimOutput s m).length ≤ m + 54 := by
  unfold trimOutput
  by_cases h : s.length ≤ m
  · rw [if_pos h]
    omega
  · rw [if_neg h]
    rw [String.length_append]
    have e1 : ((s.toList.take m).asString).length = (s.toList.take m).length := rfl
    have e2 : (s.toList.take m).length ≤ m := by
      simp [List.length_take]
    have e3 : ("\n\n[Note: Output exceeded maximum size and was trimmed]" : String).length
        = 54 := by decide
    omega

/-- C9 counterexample: the trimmed form is not the first m characters
directly followed by the bracketed note: a blank line separates them. -/
theorem trim_output_counterexample :
    trimOutput "abcdef" 3
        ≠ "abc" ++ "[Note: Output exceeded maximum size and was trimmed]"
    ∧ trimOutput "abcdef" 3
        = "abc" ++ "\n\n[Note: Output exceeded maximum size and was trimmed]" := by
  constructor
  · decide
  · decide

/-- C9 amended: trimOutput returns the input unchanged up to the limit and
otherwise the first m characters followed by a blank line and the fixed
note, so its output length is bounded by m + 54; the tail_tab_all response
passes its aggregate listing through trimOutput with limit 10000, so on the
successful path the response text never exceeds 10054 characters. -/
theorem trim_output_behaviour :
    (∀ (s : String) (m : Nat), s.length ≤ m → trimOutput s m = s)
    ∧ (∀ (s : String) (m : Nat), m < s.length →
        trimOutput s m = (s.toList.take m).asString
          ++ "\n\n[Note: Output exceeded maximum size and was trimmed]")
    ∧ (∀ (s : String) (m : Nat), (trimOutput s m).length ≤ m + 54)
    ∧ (∀ (args : Args) (env : ChanEnv) (tabs : List TabSnapshot) (resp : Response),
        (getAllTabInfo env).1 = Except.ok tabs →
        (commands.TailTabAll args env).1 = Except.ok resp →
        ∀ item ∈ resp.content, item.text.length ≤ 10054) := by
  refine ⟨?_, ?_, trimOutput_length_le, ?_⟩
  · intro s m h
    unfold trimOutput
    rw [if_pos h]
  · intro s m h
    unfold trimOutput
    rw [if_neg (not_le.mpr h)]
  · intro args env tabs resp hg hr
    unfold commands.TailTabAll tailTabAllCore at hr
    cases hvl : validateLines (if args.lines.falsy then JSVal.num 20 else args.lines)
        "lines" with
    | some e =>
      rw [hvl] at hr
      simp only [] at hr
      have hresp := Except.ok.inj hr
      intro item hi
      rw [← hresp] at hi
      simp only [createError, List.mem_singleton] at hi
      rw [hi]
      rw [validateLines_lines_msg _ _ hvl]
      decide
    | none =>
      rw [hvl] at hr
      simp only [] at hr
      rcases hge : getAllTabInfo env with ⟨fst, tr⟩
      rw [hge] at hr hg
      simp only [] at hg
      subst hg
      simp only [] at hr
      have hresp := Except.ok.inj hr
      intro item hi
      rw [← hresp] at hi
      simp only [createSuccess, List.mem_singleton] at hi
      rw [hi]
      exact trimOutput_length_le _ 10000

/-- C9 witness: a short string is returned unchanged, a long one is cut at
the limit with the note and its length is bounded, and a concrete
tail_tab_all success response respects the bound. -/
theorem trim_output_behaviour_witness :
    trimOutput "hello" 10 = "hello"
    ∧ trimOutput "abcdef" 3 = (("abcdef").toList.take 3).asString
        ++ "\n\n[Note: Output exceeded maximum size and was trimmed]"
    ∧ (trimOutput "abcdef" 3).length ≤ 57
    ∧ ∀ item ∈ (commands.TailTabAll noArgs envNoTabs).1.toOption.getD (createError "x")
        |>.content, item.text.length ≤ 10054 := by
  refine ⟨?_, ?_, ?_, ?_⟩
  · exact trim_output_behaviour.1 "hello" 10 (by decide)
  · exact trim_output_behaviour.2.1 "abcdef" 3 (by decide)
  · exact trim_output_behaviour.2.2.1 "abcdef" 3
  · have h := trim_output_behaviour.2.2.2 noArgs envNoTabs [] (createSuccess "")
      rfl rfl
    intro item hi
    apply h
    have e : (commands.TailTabAll noArgs envNoTabs).1.toOption.getD (createError "x")
        = createSuccess "" := rfl
    rw [e] at hi
    exact hi

/-! ### C6: every tool call yields a well-formed text response -/

theorem wf_createSuccess (t : String) : wellFormedResponse (createSuccess t) := by
  refine ⟨rfl, ?_⟩
  intro item hi
  simp only [createSuccess, List.mem_singleton] at hi
  rw [hi]

theorem wf_createError (t : String) : wellFormedResponse (createError t) := by
  refine ⟨rfl, ?_⟩
  intro item hi
  simp only [createError, List.mem_singleton] at hi
  rw [hi]

theorem wf_convertResult (p : HandlerResult)
    (hwf : ∀ resp, p.1 = Except.ok resp → wellFormedResponse resp) :
    wellFormedResponse (convertResult p).1 := by
  rcases p with ⟨fst, tr⟩
  cases fst with
  | ok resp => exact hwf resp rfl
  | error msg => exact wf_createError _

theorem wf_createNewTab (args : Args) (env : ChanEnv) :
    ∀ resp, (commands.createNewTab args env).1 = Except.ok resp →
      wellFormedResponse resp := by
  intro resp h
  unfold commands.createNewTab at h
  repeat' split at h
  all_goals
    first
    | (rw [← Except.ok.inj h]; exact wf_createError _)
    | (rw [← Except.ok.inj h]; exact wf_createSuccess _)
    | exact Except.noConfusion h

theorem wf_TailTabAll (args : Args) (env : ChanEnv) :
    ∀ resp, (commands.TailTabAll args env).1 = Except.ok resp →
      wellFormedResponse resp := by
  intro resp h
  unfold commands.TailTabAll tailTabAllCore at h
  repeat' split at h
  all_goals
    first
    | (rw [← Except.ok.inj h]; exact wf_createError _)
    | (rw [← Except.ok.inj h]; exact wf_createSuccess _)
    | exact Except.noConfusion h

theorem wf_TailTabSingle (args : Args) (env : ChanEnv) :
    ∀ resp, (commands.TailTabSingle args env).1 = Except.ok resp →
      wellFormedResponse resp := by
  intro resp h
  unfold commands.TailTabSingle tailTabSingleCore at h
  repeat' split at h
  all_goals
    first
    | (rw [← Except.ok.inj h]; exact wf_createError _)
    | (rw [← Except.ok.inj h]; exact wf_createSuccess _)
    | exact Except.noConfusion h

theorem wf_runCommandBlocking (args : Args) (env : ChanEnv) :
    ∀ resp, (commands.runCommandBlocking args env).1 = Except.ok resp →
      wellFormedResponse resp := by
  intro resp h
  unfold commands.runCommandBlocking runCommandBlockingCore at h
  repeat' split at h
  all_goals
    first
    | (rw [← Except.ok.inj h]; exact wf_createError _)
    | (rw [← Except.ok.inj h]; exact wf_createSuccess _)
    | exact Except.noConfusion h

theorem wf_runCommandAsync (args : Args) (env : ChanEnv) :
    ∀ resp, (commands.runCommandAsync args env).1 = Except.ok resp →
      wellFormedResponse resp := by
  intro resp h
  unfold commands.runCommandAsync runCommandAsyncCore at h
  repeat' split at h
  all_goals
    first
    | (rw [← Except.ok.inj h]; exact wf_createError _)
    | (rw [← Except.ok.inj h]; exact wf_createSuccess _)
    | exact Except.noConfusion h

theorem wf_sendControlCode (args : Args) (env : ChanEnv) :
    ∀ resp, (commands.sendControlCode args env).1 = Except.ok resp →
      wellFormedResponse resp := by
  intro resp h
  unfold commands.sendControlCode at h
  repeat' split at h
  all_goals
    first
    | (rw [← Except.ok.inj h]; exact wf_createError _)
    | (rw [← Except.ok.inj h]; exact wf_createSuccess _)
    | exact Except.noConfusion h

theorem wf_GetAllTabInfo (args : Args) (env : ChanEnv) :
    ∀ resp, (commands.GetAllTabInfo args env).1 = Except.ok resp →
      wellFormedResponse resp := by
  intro resp h
  unfold commands.GetAllTabInfo at h
  repeat' split at h
  all_goals
    first
    | (rw [← Except.ok.inj h]; exact wf_createError _)
    | (rw [← Except.ok.inj h]; exact wf_createSuccess _)
    | exact Except.noConfusion h

/-- C6: for every tool name, every argument object and every channel
environment, the call-tool request handler returns a response with exactly
one content item of type text and never fails at the transport level: each
handler converts its own errors to a text response, and an unknown tool
name or an error thrown during dispatch is converted by the top-level
handler. -/
theorem call_tool_well_formed (name : String) (args : Args) (env : ChanEnv) :
    wellFormedResponse (handleCallTool name args env).1 := by
  unfold handleCallTool
  cases hf : tools.find? (fun t => t.name == name) with
  | none => exact wf_createError _
  | some t =>
    have hmem : t ∈ tools := List.mem_of_find?_eq_some hf
    fin_cases hmem
    · exact wf_convertResult _ (wf_createNewTab args env)
    · exact wf_convertResult _ (wf_TailTabAll args env)
    · exact wf_convertResult _ (wf_TailTabSingle args env)
    · exact wf_convertResult _ (wf_runCommandBlocking args env)
    · exact wf_convertResult _ (wf_runCommandAsync args env)
    · exact wf_convertResult _ (wf_sendControlCode args env)
    · exact wf_convertResult _ (wf_GetAllTabInfo args env)

end McpIterm
